import Mathlib

/-!
Shallow embedding of Ardour's `IO` port-collection core (libs/ardour/io.cc)
together with the external collaborators it interacts with (abstracted:
backend port registry, observer veto signal, session flags).  Backend calls
and change notifications are recorded in an explicit event trace so that
"no backend call happened" and "no notification was emitted" are provable
statements about an operation's result.
-/

set_option autoImplicit false

namespace ARDOUR

/-- Data type of a port: `DataType::AUDIO`, `DataType::MIDI`, with the
sentinel `DataType::NIL`. -/
inductive DataType where
  | audio
  | midi
  | nil
deriving DecidableEq, Repr

/-- The values produced by `DataType::begin() .. DataType::end()` iteration:
audio first, then MIDI (never NIL). -/
def dataTypes : List DataType := [DataType.audio, DataType.midi]

/-- Serialization string of a data type, as used in the `type` attribute of a
`Port` node (`"audio"` / `"midi"`). -/
def DataType.toStr : DataType → String
  | .audio => "audio"
  | .midi => "midi"
  | .nil => "nil"

/-- Parse of a serialized data type. Unknown strings yield `none`
(the C++ enum conversion produces `DataType::NIL`, failing `get_property`). -/
def parseDataType : String → Option DataType
  | "audio" => some DataType.audio
  | "midi" => some DataType.midi
  | _ => none

/-- `IO::Direction`. -/
inductive Direction where
  | Input
  | Output
deriving DecidableEq, Repr

/-- Serialization string of a direction (enum writer output). -/
def Direction.toStr : Direction → String
  | .Input => "Input"
  | .Output => "Output"

/-- Parse of a serialized direction. -/
def parseDirection : String → Option Direction
  | "Input" => some Direction.Input
  | "Output" => some Direction.Output
  | _ => none

/-- `ChanCount`: a per-data-type channel count tuple. -/
structure ChanCount where
  n_audio : Nat
  n_midi : Nat
deriving DecidableEq, Repr

/-- `ChanCount::get`.  `NIL` is never queried by the modelled code paths. -/
def ChanCount.get (c : ChanCount) : DataType → Nat
  | .audio => c.n_audio
  | .midi => c.n_midi
  | .nil => 0

/-- `ChanCount::set`. Setting the `NIL` slot is a no-op (invalid in C++). -/
def ChanCount.set (c : ChanCount) : DataType → Nat → ChanCount
  | .audio, n => { c with n_audio := n }
  | .midi, n => { c with n_midi := n }
  | .nil, _ => c

/-- `ChanCount::set_audio`. -/
def ChanCount.set_audio (c : ChanCount) (n : Nat) : ChanCount := { c with n_audio := n }

/-- `ChanCount::set_midi`. -/
def ChanCount.set_midi (c : ChanCount) (n : Nat) : ChanCount := { c with n_midi := n }

/-- `ChanCount::n_total`. -/
def ChanCount.n_total (c : ChanCount) : Nat := c.n_audio + c.n_midi

/-- `ChanCount::max`: per-type maximum. -/
def ChanCount.mx (a b : ChanCount) : ChanCount :=
  ⟨Nat.max a.n_audio b.n_audio, Nat.max a.n_midi b.n_midi⟩

/-- `ChanCount::ZERO`. -/
def ChanCount.zero : ChanCount := ⟨0, 0⟩

/-- A latency range (`LatencyRange`), min/max in samples. -/
structure LatencyRange where
  lmin : Nat
  lmax : Nat
deriving DecidableEq, Repr

/-- A port (external entity referenced by the IO, see spec section 3): an
identity (name), a type, the list of names of ports it is connected to, and
its private and connected latency ranges for the playback and capture sides.
The latency figures are data the backend reports; they are plain fields
here. -/
structure Port where
  name : String
  ptype : DataType
  connections : List String
  privPlayback : LatencyRange
  privCapture : LatencyRange
  connPlayback : LatencyRange
  connCapture : LatencyRange
deriving DecidableEq, Repr

/-- `Port::connected()`: the port has at least one connection. -/
def Port.connected (p : Port) : Bool := !p.connections.isEmpty

/-- `Port::private_latency_range (playback)`. -/
def Port.private_latency_range (p : Port) (playback : Bool) : LatencyRange :=
  if playback then p.privPlayback else p.privCapture

/-- `Port::get_connected_latency_range (lr, playback)`: the latency extrema
observed over the port's connections (computed by the backend; a field
here). -/
def Port.get_connected_latency_range (p : Port) (playback : Bool) : LatencyRange :=
  if playback then p.connPlayback else p.connCapture

/-- A freshly registered port: the backend creates it with the requested name
and type, no connections and zero latency ranges. -/
def newPort (nm : String) (t : DataType) : Port :=
  ⟨nm, t, [], ⟨0, 0⟩, ⟨0, 0⟩, ⟨0, 0⟩, ⟨0, 0⟩⟩

/-- `PortSet`: the ordered, typed collection of ports of one IO.  Stored as
one ordered sequence per type; iteration order is audio ports first, then
MIDI ports (the order of `DataType` iteration). -/
structure PortSet where
  audio : List Port
  midi : List Port
deriving DecidableEq, Repr

/-- The flat iteration order of a `PortSet` (audio ports, then MIDI ports). -/
def PortSet.list (ps : PortSet) : List Port := ps.audio ++ ps.midi

/-- The per-type sequence of a `PortSet`. -/
def PortSet.typed (ps : PortSet) : DataType → List Port
  | .audio => ps.audio
  | .midi => ps.midi
  | .nil => []

/-- `PortSet::count()`: the `ChanCount` of the set. -/
def PortSet.count (ps : PortSet) : ChanCount := ⟨ps.audio.length, ps.midi.length⟩

/-- `PortSet::num_ports()`. -/
def PortSet.num_ports (ps : PortSet) : Nat := ps.audio.length + ps.midi.length

/-- `PortSet::empty()`. -/
def PortSet.isEmpty (ps : PortSet) : Bool := ps.num_ports == 0

/-- `PortSet::contains (port)`: shared-pointer membership, modelled as value
membership. -/
def PortSet.containsP (ps : PortSet) (p : Port) : Bool := ps.list.contains p

/-- `PortSet::add (port)`: append the port to the sequence of its own type.
A `NIL`-typed port is never added by the modelled code paths. -/
def PortSet.add (ps : PortSet) (p : Port) : PortSet :=
  match p.ptype with
  | .audio => ⟨ps.audio ++ [p], ps.midi⟩
  | .midi => ⟨ps.audio, ps.midi ++ [p]⟩
  | .nil => ps

/-- `PortSet::remove (port)`: remove the port from its type's sequence;
returns whether it was found. -/
def PortSet.removeP (ps : PortSet) (p : Port) : PortSet × Bool :=
  if ps.audio.contains p then (⟨ps.audio.erase p, ps.midi⟩, true)
  else if ps.midi.contains p then (⟨ps.audio, ps.midi.erase p⟩, true)
  else (ps, false)

/-- `PortSet::port (type, i)`: the i-th port of the given type. -/
def PortSet.portOfType (ps : PortSet) (t : DataType) (i : Nat) : Option Port :=
  (ps.typed t).get? i

/-- `PortSet::port (n)` / `IO::nth (n)`: flat indexing. -/
def PortSet.nthPort (ps : PortSet) (n : Nat) : Option Port := ps.list.get? n

/-- Well-formedness of a `PortSet`: every port sits in the sequence of its
own type (maintained by `add`/`remove`, assumed for pre-existing sets). -/
def PortSet.wf (ps : PortSet) : Prop :=
  (∀ p ∈ ps.audio, p.ptype = DataType.audio) ∧ (∀ p ∈ ps.midi, p.ptype = DataType.midi)

instance (ps : PortSet) : Decidable ps.wf := by
  unfold PortSet.wf
  exact instDecidableAnd

/-- One logical channel of a `Bundle`: display name, data type, and the
fully-qualified physical port name bound to it. -/
structure BundleChannel where
  name : String
  btype : DataType
  portname : String
deriving DecidableEq, Repr

/-- `Bundle`: a named, ordered list of logical channels. -/
structure Bundle where
  name : String
  channels : List BundleChannel
deriving DecidableEq, Repr

/-- `IOChange`: what changed in one mutation — the two change bits plus
before/after channel counts. -/
structure IOChange where
  configuration : Bool
  connections : Bool
  before : ChanCount
  after : ChanCount
deriving DecidableEq, Repr

/-- `IOChange()` default constructed: `NoChange`, zero counts. -/
def IOChange.noChange : IOChange := ⟨false, false, ChanCount.zero, ChanCount.zero⟩

/-- `change.type != IOChange::NoChange`. -/
def IOChange.nonEmpty (c : IOChange) : Bool := c.configuration || c.connections

/-- `IOChange (IOChange::ConnectionsChanged)`. -/
def IOChange.connectionsOnly : IOChange := ⟨false, true, ChanCount.zero, ChanCount.zero⟩

/-- Observable effects of an operation: backend calls and emitted
notifications, in program order.  `registerPort` records a backend
registration attempt (made whether or not the backend accepts it);
`portCountChanged` is the `PortCountChanged` signal, `changedSig` the
`changed` signal, `setDirty` the session dirty mark. -/
inductive Event where
  | registerPort (t : DataType) (name : String)
  | unregisterPort (name : String)
  | portConnect (ourPort other : String)
  | portDisconnect (ourPort other : String)
  | disconnectAllOf (name : String)
  | reconnectOf (name : String)
  | portCountChanged (c : ChanCount)
  | changedSig (c : IOChange)
  | setDirty
deriving DecidableEq, Repr

/-- The environment: the external collaborators of the IO.
`port_name_size` and `my_name` are the backend's advertised maximum
port-name size and the engine's client name; `regOk` tells which
registrations the backend accepts; `veto` is the combined result of the
`PortCountChanging` observers (`std::optional<int>`); `connectOk` /
`disconnectOk` are the backend's responses to port (dis)connection;
the two flags are session state; `find_possible_bundle` abstracts
`IO::find_possible_bundle` (a `Session::bundle_by_name` lookup plus a
legacy-compatibility heuristic, io.cc lines 683-771) returning the found
bundle's channel count — the serialized-state round trip never consults it
because `IO::state()` emits neither a `connection` attribute nor `Bundle`
children. -/
structure Env where
  port_name_size : Nat
  my_name : String
  regOk : DataType → String → Bool
  veto : ChanCount → Option Int
  connectOk : String → String → Bool
  disconnectOk : String → String → Bool
  initial_connect_or_deletion_in_progress : Bool
  find_possible_bundle : String → Option ChanCount

/-- `r.value_or (0)` truthiness of the `PortCountChanging` observer result. -/
def vetoTruthy (env : Env) (c : ChanCount) : Bool := ((env.veto c).getD 0) != 0

/-- The state of one `IO` object. -/
structure IOState where
  name : String
  ident : Nat
  direction : Direction
  default_type : DataType
  sendish : Bool
  pretty_name : String
  audio_channel_names : List String
  ports : PortSet
  bundle : Bundle
deriving DecidableEq, Repr

/-! ## Port name allocation (`IO::build_legal_port_name`, `IO::find_port_hole`) -/

/-- `legalize_io_name`: replace every colon (backend namespace separator)
with a dash. -/
def legalize_io_name (s : String) : String :=
  ⟨s.data.map (fun c => if c = ':' then '-' else c)⟩

/-- Truncation to at most `n` characters: the effect of `snprintf` into a
buffer that holds `n` characters plus the terminating NUL. -/
def strTake (s : String) (n : Nat) : String := ⟨s.data.take n⟩

/-- The type-and-role suffix of a port name: data type (`audio`/`midi`)
followed by `_return`/`_send` for sendish IOs and `_in`/`_out` otherwise.
For `DataType::NIL` the C++ code throws `unknown_type`; no modelled caller
passes `NIL`. -/
def type_suffix (st : IOState) (t : DataType) : String :=
  let s : String :=
    match t with
    | .audio => "audio"
    | .midi => "midi"
    | .nil => ""
  s ++ (if st.sendish then (if st.direction = Direction.Input then "_return" else "_send")
        else (if st.direction = Direction.Input then "_in" else "_out"))

/-- The base (`buf1`) of a legal port name: the owner name, colon-legalized
and truncated to `limit` characters, then `/` and the type suffix, the whole
written by `snprintf` into a buffer of `port_name_size + 1` characters.
`limit` is computed in (wrapping) unsigned arithmetic and converted to
`int`; on the mainstream platforms this yields the signed value modelled
here, and `snprintf` treats a negative `%.*s` precision as "no limit". -/
def legal_base (env : Env) (st : IOState) (t : DataType) : String :=
  let suffix := type_suffix st t
  let limit : Int := (env.port_name_size : Int) - (env.my_name.length : Int) - ((suffix.length : Int) + 5)
  let nom := legalize_io_name st.name
  let nomT := if limit < 0 then nom else strTake nom limit.toNat
  strTake (nomT ++ "/" ++ suffix) env.port_name_size

/-- The candidate name `"<base> <n>"`, `snprintf`-truncated to the backend's
maximum port-name size (both `find_port_hole` and `build_legal_port_name`
format it this way into a `port_name_size + 1` buffer). -/
def portCandidate (env : Env) (base : String) (n : Nat) : String :=
  strTake (base ++ " " ++ toString n) env.port_name_size

/-- Whether some port of the set already carries the candidate name. -/
def nameTaken (env : Env) (ports : PortSet) (base : String) (n : Nat) : Bool :=
  ports.list.any (fun p => p.name == portCandidate env base n)

/-- The search loop of `find_port_hole`: `for (n = 1; n < 9999; ++n)` —
stop at the first `n` whose candidate name is free; past 9999 give up and
return 9999.  The fuel argument counts the remaining loop iterations
(`9999 - n`), making the recursion structural. -/
def fph_loop (env : Env) (ports : PortSet) (base : String) : Nat → Nat → Nat
  | 0, n => n
  | fuel + 1, n => if nameTaken env ports base n then fph_loop env ports base fuel (n + 1) else n

/-- `IO::find_port_hole (ports, base)`: 1 for an empty set, otherwise the
first free numeric suffix in `1 .. 9998` (9999 when the search gives up). -/
def find_port_hole (env : Env) (ports : PortSet) (base : String) : Nat :=
  if ports.isEmpty then 1 else fph_loop env ports base 9998 1

/-- `IO::build_legal_port_name (ports, type)`. -/
def build_legal_port_name (env : Env) (st : IOState) (ports : PortSet) (t : DataType) : String :=
  let base := legal_base env st t
  portCandidate env base (find_port_hole env ports base)

/-! ## `IO::ensure_ports_locked` and `IO::ensure_ports` -/

/-- The shrink pass of `ensure_ports_locked` for one type: remove ports from
the highest index down to the requested count `n`, holding then dropping a
temporary reference so the backend unregistration runs on this thread (the
unregister events appear highest index first, the C++ removal order).
Returns the new set, the events and the `changed` flag contribution. -/
def shrink_ports (ps : PortSet) (t : DataType) (n : Nat) : PortSet × List Event × Bool :=
  let l := ps.typed t
  let kept := l.take n
  let dropped := l.drop n
  let ps2 : PortSet :=
    match t with
    | .audio => ⟨kept, ps.midi⟩
    | .midi => ⟨ps.audio, kept⟩
    | .nil => ps
  (ps2, dropped.reverse.map (fun q => Event.unregisterPort q.name), decide (n < l.length))

/-- The growth loop of `ensure_ports_locked` for one type:
`while (p->count().get(*t) < n)` allocate a legal name against the
in-progress set, register it with the backend, and add the new port.  A
refused registration aborts with the partial set (no rollback).  Each
successful iteration adds exactly one port of type `t`, so the loop runs
exactly `n - count` times; the fuel argument carries that bound to make the
recursion structural. Returns (set, events, success). -/
def grow_loop (env : Env) (st : IOState) (t : DataType) (n : Nat) :
    Nat → PortSet → PortSet × List Event × Bool
  | 0, p => (p, [], true)
  | fuel + 1, p =>
    if p.count.get t < n then
      let portname := build_legal_port_name env st p t
      if env.regOk t portname then
        let g := grow_loop env st t n fuel (p.add (newPort portname t))
        (g.1, Event.registerPort t portname :: g.2.1, g.2.2)
      else (p, [Event.registerPort t portname], false)
    else (p, [], true)

/-- The growth pass for one type, with the exact fuel. -/
def grow_ports (env : Env) (st : IOState) (t : DataType) (n : Nat) (p : PortSet) :
    PortSet × List Event × Bool :=
  grow_loop env st t n (n - p.count.get t) p

/-- The per-type loop of `ensure_ports_locked` over `DataType` iteration:
shrink then grow each type in order, aborting (with the partial set kept)
when a registration fails.  Returns (set, events, changed, success). -/
def ensure_types (env : Env) (st : IOState) (count : ChanCount) :
    List DataType → PortSet → List Event → Bool → PortSet × List Event × Bool × Bool
  | [], p, evs, chg => (p, evs, chg, true)
  | t :: ts, p, evs, chg =>
    let n := count.get t
    let s := shrink_ports p t n
    let g := grow_ports env st t n s.1
    let chg2 := chg || s.2.2 || decide (g.1.count.get t ≠ s.1.count.get t)
    if g.2.2 then ensure_types env st count ts g.1 (evs ++ s.2.1 ++ g.2.1) chg2
    else (g.1, evs ++ s.2.1 ++ g.2.1, chg2, false)

/-- The `clear` step: disconnect every port from all its connections. -/
def clear_ports (ps : PortSet) : PortSet × List Event :=
  (⟨ps.audio.map (fun p => { p with connections := [] }),
    ps.midi.map (fun p => { p with connections := [] })⟩,
   ps.list.map (fun p => Event.disconnectAllOf p.name))

/-- `IO::ensure_ports_locked (count, clear, changed)`: per-type shrink and
grow on a writer copy, commit, then on any change emit `PortCountChanged`,
mark the session dirty and flush; finally disconnect everything if `clear`.
On a registration failure the partial mutation stays committed (the
`RCUWriter` destructor runs on the early return) and -1 is returned.
Result: (return code, state, events, changed flag). -/
def ensure_ports_locked (env : Env) (st : IOState) (count : ChanCount) (clear : Bool) :
    Int × IOState × List Event × Bool :=
  let r := ensure_types env st count dataTypes st.ports [] false
  if r.2.2.2 then
    let p := r.1
    let evs := r.2.1 ++ (if r.2.2.1 then [Event.portCountChanged p.count, Event.setDirty] else [])
    if clear then
      let c := clear_ports p
      (0, { st with ports := c.1 }, evs ++ c.2, r.2.2.1)
    else (0, { st with ports := p }, evs, r.2.2.1)
  else (-1, { st with ports := r.1 }, r.2.1, r.2.2.1)

/-! ## Bundle synchronization (`IO::setup_bundle`, `IO::bundle_channel_name`) -/

/-- `AudioEngine::make_port_name_non_relative`: qualify a relative port name
with the engine's client name. -/
def make_port_name_non_relative (env : Env) (s : String) : String :=
  if s.data.contains ':' then s else env.my_name ++ ":" ++ s

/-- `IO::bundle_channel_name (c, n, t)`: positional display name of channel
`c` out of `n` of type `t`; user-supplied audio channel names take
precedence when their count matches exactly. -/
def bundle_channel_name (st : IOState) (c n : Nat) (t : DataType) : String :=
  if t = DataType.audio then
    if n = st.audio_channel_names.length ∧ c < st.audio_channel_names.length then
      st.audio_channel_names.getD c ""
    else
      match n with
      | 1 => "mono"
      | 2 => if c = 0 then "L" else "R"
      | _ => toString (c + 1)
  else toString (c + 1)

/-- `IO::setup_bundle`: wholesale rebuild of the bundle — one channel per
current port in type-then-index order, named positionally and bound to the
fully-qualified port name; the bundle is renamed `"<io name> in|out"`.
(The C++ suspends and resumes the bundle's signals around the rebuild;
notification coalescing is not modelled.) -/
def setup_bundle (env : Env) (st : IOState) : Bundle :=
  { name := st.name ++ " " ++ (if st.direction = Direction.Input then "in" else "out"),
    channels :=
      (dataTypes.map (fun t =>
        (List.range (st.ports.count.get t)).map (fun j =>
          { name := bundle_channel_name st j (st.ports.count.get t) t,
            btype := t,
            portname := make_port_name_non_relative env
              ((((st.ports.typed t).get? j).map Port.name).getD "") }))).flatten }

/-! ## `IO::ensure_ports` -/

/-- `IO::ensure_ports (count, clear, src)`: no-op fast path when the
requested count equals the current one and no clear is requested; otherwise
run the locked mutation and, if anything changed, emit the `changed`
signal, re-derive the bundle and mark the session dirty. -/
def ensure_ports (env : Env) (st : IOState) (count : ChanCount) (clear : Bool) :
    Int × IOState × List Event :=
  if count = st.ports.count ∧ clear = false then (0, st, [])
  else
    let before := st.ports.count
    let r := ensure_ports_locked env st count clear
    if r.1 ≠ 0 then (-1, r.2.1, r.2.2.1)
    else
      let st1 := r.2.1
      if r.2.2.2 then
        let change : IOChange := ⟨true, false, before, st1.ports.count⟩
        (0, { st1 with bundle := setup_bundle env st1 },
         r.2.2.1 ++ [Event.changedSig change, Event.setDirty])
      else (0, st1, r.2.2.1)

/-! ## `IO::can_add_port`, `IO::add_port`, `IO::remove_port` -/

/-- `IO::can_add_port (type)`: audio always, MIDI only below the per-IO cap
of one, never `NIL`. -/
def can_add_port (st : IOState) (t : DataType) : Bool :=
  match t with
  | .nil => false
  | .audio => true
  | .midi => st.ports.count.n_midi < 1

/-- Update the first port carrying the given name (the shared port object
`connect` mutates). -/
def updateFirstNamed (l : List Port) (nm : String) (f : Port → Port) : List Port :=
  match l with
  | [] => []
  | p :: rest => if p.name = nm then f p :: rest else p :: updateFirstNamed rest nm f

/-- Apply `updateFirstNamed` across the typed sequences (audio first, the
flat search order). -/
def PortSet.updateNamed (ps : PortSet) (nm : String) (f : Port → Port) : PortSet :=
  if ps.audio.any (fun p => p.name == nm) then ⟨updateFirstNamed ps.audio nm f, ps.midi⟩
  else ⟨ps.audio, updateFirstNamed ps.midi nm f⟩

/-- `IO::add_port (destination, src, type)`: resolve the default type, check
the cardinality rule, offer the `PortCountChanging` veto, then register one
port, add it to a writer copy, commit, notify, optionally connect to the
destination, and re-derive pretty names and the bundle. -/
def add_port (env : Env) (st : IOState) (destination : String) (dtype : DataType) :
    Int × IOState × List Event :=
  let t := if dtype = DataType.nil then st.default_type else dtype
  if !can_add_port st t then (-1, st, [])
  else
    let before := st.ports.count
    let after := before.set t (before.get t + 1)
    if vetoTruthy env after then (-1, st, [])
    else
      let portname := build_legal_port_name env st st.ports t
      if !env.regOk t portname then (-1, st, [Event.registerPort t portname])
      else
        let p := st.ports.add (newPort portname t)
        let change : IOChange := ⟨true, false, before, p.count⟩
        let evs := [Event.registerPort t portname, Event.portCountChanged p.count,
                    Event.changedSig change]
        let st1 := { st with ports := p }
        if destination.length ≠ 0 then
          let evs2 := evs ++ [Event.portConnect portname destination]
          if !env.connectOk portname destination then (-1, st1, evs2)
          else
            let p2 := st1.ports.updateNamed portname
              (fun q => { q with connections := q.connections ++ [destination] })
            let st2 := { st1 with ports := p2 }
            (0, { st2 with bundle := setup_bundle env st2 }, evs2 ++ [Event.setDirty])
        else (0, { st1 with bundle := setup_bundle env st1 }, evs ++ [Event.setDirty])

/-- `IO::remove_port (port, src)`: offer the `PortCountChanging` veto, then
remove the port from a writer copy, unregister it from the backend, commit,
notify, and re-derive the bundle when the configuration changed.  Returns
-1 when the port was not in the set (`NoChange`). -/
def remove_port (env : Env) (st : IOState) (port : Port) : Int × IOState × List Event :=
  let before := st.ports.count
  let after := before.set port.ptype (before.get port.ptype - 1)
  if vetoTruthy env after then (-1, st, [])
  else
    let pr := st.ports.removeP port
    let p := pr.1
    let change : IOChange :=
      if pr.2 then ⟨true, port.connected, before, p.count⟩ else IOChange.noChange
    let evs := [Event.unregisterPort port.name, Event.portCountChanged p.count]
    let evs2 := evs ++ (if change.nonEmpty then [Event.changedSig change] else [])
    let st1 := { st with ports := p }
    let st2 := if change.configuration then { st1 with bundle := setup_bundle env st1 } else st1
    if !change.nonEmpty then (-1, st2, evs2)
    else (0, st2, evs2 ++ [Event.setDirty])

/-! ## `IO::connect`, `IO::disconnect` -/

/-- `IO::connect (our_port, other_port, src)`: empty target or null handle
is a no-op success; a port not in the current snapshot is rejected before
any backend call; otherwise delegate to the port's connect primitive and on
success notify and mark the session dirty. -/
def io_connect (env : Env) (st : IOState) (our_port : Option Port) (other : String) :
    Int × IOState × List Event :=
  match our_port with
  | none => (0, st, [])
  | some p =>
    if other.length = 0 then (0, st, [])
    else if !st.ports.containsP p then (-1, st, [])
    else
      let evs := [Event.portConnect p.name other]
      if env.connectOk p.name other then
        let p2 := st.ports.updateNamed p.name
          (fun q => { q with connections := q.connections ++ [other] })
        (0, { st with ports := p2 },
         evs ++ [Event.changedSig IOChange.connectionsOnly, Event.setDirty])
      else (-1, st, evs)

/-- `IO::disconnect (our_port, other_port, src)`: same validation as
`connect`, delegating to the port's disconnect primitive. -/
def io_disconnect (env : Env) (st : IOState) (our_port : Option Port) (other : String) :
    Int × IOState × List Event :=
  match our_port with
  | none => (0, st, [])
  | some p =>
    if other.length = 0 then (0, st, [])
    else if !st.ports.containsP p then (-1, st, [])
    else
      let evs := [Event.portDisconnect p.name other]
      if env.disconnectOk p.name other then
        let p2 := st.ports.updateNamed p.name
          (fun q => { q with connections := q.connections.filter (fun c => c ≠ other) })
        (0, { st with ports := p2 },
         evs ++ [Event.changedSig IOChange.connectionsOnly, Event.setDirty])
      else (-1, st, evs)

/-! ## Latency aggregation (`IO::latency`, `IO::connected_latency`) -/

/-- `IO::latency ()`: maximum private latency range upper bound over all
ports, on the playback side for an output IO and the capture side for an
input IO. -/
def latency (st : IOState) : Nat :=
  st.ports.list.foldl
    (fun m p =>
      if (p.private_latency_range (st.direction = Direction.Output)).lmax > m then
        (p.private_latency_range (st.direction = Direction.Output)).lmax
      else m)
    0

/-- The first loop of `connected_latency`: accumulate private latency maxima
until a connected port is found, in which case break with `max_latency`
reset to 0 and `connected` set. -/
def cl_first (fp : Bool) : List Port → Nat → Nat × Bool
  | [], m => (m, false)
  | p :: ps, m =>
    if p.connected then (0, true)
    else cl_first fp ps
      (if (p.private_latency_range fp).lmax > m then (p.private_latency_range fp).lmax else m)

/-- `IO::connected_latency (for_playback)`: if any port is connected, the
maximum connected latency range upper bound over all ports; otherwise the
maximum private latency upper bound. -/
def connected_latency (st : IOState) (fp : Bool) : Nat :=
  let r := cl_first fp st.ports.list 0
  if r.2 then
    st.ports.list.foldl
      (fun m p =>
        if (p.get_connected_latency_range fp).lmax > m then
          (p.get_connected_latency_range fp).lmax
        else m)
      r.1
  else r.1

/-! ## Character-list helpers for the C++ `std::string` operations -/

/-- `str.find_first_of (c, start)`: index of the first occurrence of `c` at
position `start` or later. -/
def findCharFrom (s : List Char) (c : Char) (start : Nat) : Option Nat :=
  ((s.drop start).findIdx? (fun x => x = c)).map (fun i => i + start)

/-- `str.substr (pos, len)`. -/
def substrOf (s : List Char) (pos len : Nat) : List Char := (s.drop pos).take len

/-- `str.find (sub)`: index of the first occurrence of the substring. -/
def findSubIdx (s sub : List Char) : Option Nat :=
  (List.range (s.length + 1)).find? (fun i => sub.isPrefixOf (s.drop i))

/-- `str.replace (pos, n, repl)` at the first occurrence of `sub` (the
`find`-then-`replace` idiom); the string is unchanged when `sub` does not
occur. -/
def substFirst (s sub repl : List Char) : List Char :=
  match findSubIdx s sub with
  | none => s
  | some i => s.take i ++ repl ++ s.drop (i + sub.length)

/-! ## Persisted state (`IO::state`, `IO::set_state`, `IO::create_ports`) -/

/-- The persisted-state container: a tree node with a name, attributes and
children (the opaque XML carrier of the spec). -/
inductive XMLNode where
  | mk (name : String) (properties : List (String × String)) (children : List XMLNode)

/-- Node name. -/
def XMLNode.name : XMLNode → String
  | .mk n _ _ => n

/-- Node attributes. -/
def XMLNode.properties : XMLNode → List (String × String)
  | .mk _ ps _ => ps

/-- Node children. -/
def XMLNode.children : XMLNode → List XMLNode
  | .mk _ _ cs => cs

/-- `XMLNode::property (name)`: first attribute of the given name. -/
def XMLNode.property (n : XMLNode) (k : String) : Option String :=
  (n.properties.find? (fun kv => kv.1 == k)).map (fun kv => kv.2)

/-- `remove_property` followed by `set_property`. -/
def XMLNode.setProperty (n : XMLNode) (k v : String) : XMLNode :=
  .mk n.name (n.properties.filter (fun kv => kv.1 ≠ k) ++ [(k, v)]) n.children

/-- Modelled from the spec: `Port::get_state` is not part of the source
excerpt; section 6 of the spec specifies that each serialized port is a
child node named `"Port"` carrying the port's own attributes including
`name` and `type` (`"audio"|"midi"`). -/
def portGetState (p : Port) : XMLNode :=
  .mk "Port" [("name", p.name), ("type", p.ptype.toStr)] []

/-- Modelled from the spec: `Port::set_state` is not part of the source
excerpt; per the source comment at the call site it does not connect the
port but stores the names of connected ports for a later `reconnect`.
None of the attributes it reads (beyond `name`, used for the lookup that
already happened) alter the port's identity or type, so the port value is
unchanged here. -/
def portSetState (p : Port) (_node : XMLNode) (_version : Nat) : Port := p

/-- `IO::state ()`: one `"IO"` node with `name`, `id`, `direction`,
`default-type`, the optional `pretty-name`, and one serialized child per
port. -/
def io_state (st : IOState) : XMLNode :=
  .mk "IO"
    ([("name", st.name), ("id", toString st.ident),
      ("direction", st.direction.toStr), ("default-type", st.default_type.toStr)] ++
     (if st.pretty_name = "" then [] else [("pretty-name", st.pretty_name)]))
    (st.ports.list.map portGetState)

/-- `IO::set_name (requested_name)`: colon-legalize, rename every port by
substituting the new name for the old one inside the port name, and rebuild
the bundle. -/
def set_name (env : Env) (st : IOState) (requested : String) : IOState :=
  if st.name = requested then st
  else
    let nm := legalize_io_name requested
    let ren := fun (p : Port) =>
      { p with name := ⟨substFirst p.name.data st.name.data nm.data⟩ }
    let st2 := { st with name := nm, ports := ⟨st.ports.audio.map ren, st.ports.midi.map ren⟩ }
    { st2 with bundle := setup_bundle env st2 }

/-- `IO::set_pretty_name (str)` (the per-port pretty-name application is
outside the modelled state). -/
def set_pretty_name (st : IOState) (s : String) : IOState :=
  if st.pretty_name = s then st else { st with pretty_name := s }

/-- The child loop of `IO::get_port_counts` for the current format: count
`Port` children per `type` attribute, stopping early at a `Bundle` child
(whose resolved channel count wins, or fails the whole scan). -/
def gpc_loop (env : Env) : List XMLNode → ChanCount → Nat → Nat → ChanCount →
    Int × ChanCount × Option ChanCount
  | [], n, _, _, cnt => (0, ChanCount.mx n cnt, none)
  | ch :: rest, n, na, nm, cnt =>
    if ch.name = "Bundle" then
      match env.find_possible_bundle ((ch.property "name").getD "") with
      | some cc => (0, ChanCount.mx n cc, some cc)
      | none => (-1, n, none)
    else if ch.name = "Port" then
      match ch.property "type" with
      | none => gpc_loop env rest n na nm cnt
      | some tv =>
        if tv = "audio" then gpc_loop env rest n (na + 1) nm (cnt.set_audio (na + 1))
        else if tv = "midi" then gpc_loop env rest n na (nm + 1) (cnt.set_midi (nm + 1))
        else gpc_loop env rest n na nm cnt
    else gpc_loop env rest n na nm cnt

/-- The legacy branch of `IO::get_port_counts_2X`: a chain over the *node's*
(not the child's) legacy attributes, evaluated once per child — zero when
the node has no children. -/
def gpc2X_value (st : IOState) (node : XMLNode) : Nat :=
  if (node.property "inputs").isSome ∧ st.direction = Direction.Input then
    (((node.property "inputs").getD "").data.filter (fun c => c = Char.ofNat 123)).length
  else if (node.property "input-connection").isSome ∧ st.direction = Direction.Input then 1
  else if (node.property "outputs").isSome ∧ st.direction = Direction.Output then
    (((node.property "outputs").getD "").data.filter (fun c => c = Char.ofNat 123)).length
  else if (node.property "output-connection").isSome ∧ st.direction = Direction.Output then 2
  else 0

/-- `IO::get_port_counts_2X`. -/
def get_port_counts_2X (st : IOState) (node : XMLNode) (n : ChanCount) :
    Int × ChanCount × Option ChanCount :=
  let n_audio := if node.children.isEmpty then 0 else gpc2X_value st node
  (0, ChanCount.mx n ⟨n_audio, 0⟩, none)

/-- `IO::get_port_counts (node, version, n, c)`: derive the required counts
from a `connection` attribute, a `Bundle` child, or the `Port` children. -/
def get_port_counts (env : Env) (st : IOState) (node : XMLNode) (version : Nat) (n0 : ChanCount) :
    Int × ChanCount × Option ChanCount :=
  if version < 3000 then get_port_counts_2X st node n0
  else
    let n := st.ports.count
    match node.property "connection" with
    | some v =>
      match env.find_possible_bundle v with
      | some cc => (0, ChanCount.mx n cc, some cc)
      | none => (0, n, none)
    | none => gpc_loop env node.children n 0 0 ChanCount.zero

/-- `IO::create_ports (node, version)`: compute the counts (return value of
`get_port_counts` is ignored, as in the source) and ensure them under the
process lock, clearing existing connections unless an initial connect or a
deletion is in progress. -/
def create_ports (env : Env) (st : IOState) (node : XMLNode) (version : Nat) :
    Int × IOState × List Event :=
  let g := get_port_counts env st node version ChanCount.zero
  let r := ensure_ports env st g.2.1 (!env.initial_connect_or_deletion_in_progress)
  if r.1 ≠ 0 then (-1, r.2.1, r.2.2) else (0, r.2.1, r.2.2)

/-- The `_sendish && _direction == Output` fixup of `set_state`: walk ports
and children in lockstep, overwriting each `Port` child's `name` attribute
with the corresponding created port's name. -/
def rename_port_children : List Port → List XMLNode → List XMLNode
  | _, [] => []
  | [], cs => cs
  | p :: ps, c :: cs =>
    (if c.name = "Port" then c.setProperty "name" p.name else c) :: rename_port_children ps cs

/-- `IO::port_by_name (str)`: first port with the given name. -/
def port_by_name (st : IOState) (nm : String) : Option Port :=
  st.ports.list.find? (fun p => p.name == nm)

/-- The `Port` child loop at the end of `set_state`: look the port up by
name, apply its serialized sub-state, and reconnect it unless an initial
connect or deletion is in progress. -/
def apply_port_children (env : Env) (st : IOState) (version : Nat) :
    List XMLNode → IOState × List Event
  | [] => (st, [])
  | ch :: rest =>
    if ch.name = "Port" then
      match ch.property "name" with
      | none => apply_port_children env st version rest
      | some nm =>
        match port_by_name st nm with
        | none => apply_port_children env st version rest
        | some p =>
          let st2 := { st with ports := st.ports.updateNamed nm (fun q => portSetState q ch version) }
          let evs := if !env.initial_connect_or_deletion_in_progress then [Event.reconnectOf p.name] else []
          let r := apply_port_children env st2 version rest
          (r.1, evs ++ r.2)
    else apply_port_children env st version rest

/-! ## Legacy connection-string decoding
(`IO::parse_io_string`, `IO::set_port_state_2X`) -/

/-- The comma-splitting loop of `IO::parse_io_string`: segments between
commas, the final segment only when non-empty (a trailing comma yields
nothing).  The fuel bounds the iterations (one comma consumed each turn,
so `s.length + 1` always suffices). -/
def pis_loop (s : List Char) : Nat → Nat → List (List Char)
  | 0, _ => []
  | fuel + 1, opos =>
    match findCharFrom s ',' opos with
    | some pos => substrOf s opos (pos - opos) :: pis_loop s fuel (pos + 1)
    | none => if opos < s.length then [substrOf s opos (s.length - opos)] else []

/-- `IO::parse_io_string (str, ports)`: the empty string yields no names. -/
def parse_io_string (s : List Char) : List (List Char) :=
  if s.length = 0 then [] else pis_loop s (s.length + 1) 0

/-- Connect every name of one brace group to the i-th port (flat index),
after the legacy `"/out"` → `"/audio_out"` (resp. `"/in"` → `"/audio_in"`)
name rewrite; out-of-range indices are skipped (`nth` returned null). -/
def connect_group (env : Env) (p : PortSet) (i : Nat) (names : List (List Char))
    (sub repl : List Char) : PortSet × List Event :=
  names.foldl
    (fun acc nm =>
      let nm2 : String := ⟨substFirst nm sub repl⟩
      match acc.1.nthPort i with
      | none => acc
      | some q =>
        let evs := acc.2 ++ [Event.portConnect q.name nm2]
        if env.connectOk q.name nm2 then
          (acc.1.updateNamed q.name (fun r => { r with connections := r.connections ++ [nm2] }), evs)
        else (acc.1, evs))
    (p, [])

/-- The brace-group scanning loop of `set_port_state_2X`: find `{`, find the
matching `}` (missing one is a format error, -1), decode the group's names
and connect them to port `i`, then continue after the `}` with `i + 1`.
Each iteration moves past one `{...}` pair so `s.length + 1` fuel always
suffices. -/
def sps_loop (env : Env) (s : List Char) (sub repl : List Char) :
    Nat → Nat → Nat → PortSet → Int × PortSet × List Event
  | 0, _, _, p => (0, p, [])
  | fuel + 1, ostart, i, p =>
    match findCharFrom s (Char.ofNat 123) ostart with
    | none => (0, p, [])
    | some sp =>
      let start := sp + 1
      match findCharFrom s (Char.ofNat 125) start with
      | none => (-1, p, [])
      | some en =>
        let names := parse_io_string (substrOf s start (en - start))
        let cg := connect_group env p i names sub repl
        let r := sps_loop env s sub repl fuel (en + 1) (i + 1) cg.1
        (r.1, r.2.1, cg.2 ++ r.2.2)

/-- `IO::set_port_state_2X (node, version, in)`: decode the legacy
brace-delimited `inputs` (for an input IO) or `outputs` (for an output IO)
attribute, mapping the i-th group to the i-th port and each comma-separated
name inside a group to one connection of that port. -/
def set_port_state_2X (env : Env) (st : IOState) (node : XMLNode) (_version : Nat) (inb : Bool) :
    Int × IOState × List Event :=
  let step1 :=
    match node.property "inputs" with
    | some sv =>
      if inb then
        sps_loop env sv.data "/out".data "/audio_out".data (sv.data.length + 1) 0 0 st.ports
      else (0, st.ports, [])
    | none => (0, st.ports, [])
  if step1.1 ≠ 0 then (-1, { st with ports := step1.2.1 }, step1.2.2)
  else
    let st1 := { st with ports := step1.2.1 }
    let step2 :=
      match node.property "outputs" with
      | some sv =>
        if !inb then
          sps_loop env sv.data "/in".data "/audio_in".data (sv.data.length + 1) 0 0 st1.ports
        else (0, st1.ports, [])
      | none => (0, st1.ports, [])
    if step2.1 ≠ 0 then (-1, { st1 with ports := step2.2.1 }, step1.2.2 ++ step2.2.2)
    else (0, { st1 with ports := step2.2.1 }, step1.2.2 ++ step2.2.2)

/-! ## `IO::set_state` and the XML constructor -/

/-- The second half of `IO::set_state` (from the `create_ports` call on):
derive and ensure the port counts, fix up `Port` child names for sendish
outputs, read the pretty name, then apply each port's serialized sub-state
by name lookup and reconnect. -/
def set_state_ports_phase (env : Env) (st4 : IOState) (node : XMLNode) (version : Nat) :
    Int × IOState × List Event :=
  let cp := create_ports env st4 node version
  if cp.1 ≠ 0 then (-1, cp.2.1, cp.2.2)
  else
    let st5 := cp.2.1
    let node2 :=
      if st5.sendish ∧ st5.direction = Direction.Output then
        XMLNode.mk node.name node.properties (rename_port_children st5.ports.list node.children)
      else node
    let st6 :=
      match node2.property "pretty-name" with
      | some pn => set_pretty_name st5 pn
      | none => st5
    let ap := apply_port_children env st6 version node2.children
    (0, ap.1, cp.2.2 ++ ap.2)

/-- `IO::set_state (node, version)`: current-format decoding — read
name/default-type/id/direction from the node's attributes, then run the
port-count and per-port phase (`set_state_ports_phase`).  The C++ asserts
`version >= 3000`; the guard models that precondition. -/
def set_state (env : Env) (st : IOState) (node : XMLNode) (version : Nat) :
    Int × IOState × List Event :=
  if version < 3000 then (-1, st, [])
  else if node.name ≠ "IO" then (-1, st, [])
  else
    let ignore_name := (node.property "ignore-name").isSome
    let st1 :=
      match node.property "name" with
      | some nm => if !ignore_name then set_name env st nm else st
      | none => st
    let st2 :=
      match (node.property "default-type").bind parseDataType with
      | some t => { st1 with default_type := t }
      | none => st1
    let st3 :=
      match (node.property "id").bind String.toNat? with
      | some i => { st2 with ident := i }
      | none => st2
    let st4 :=
      match (node.property "direction").bind parseDirection with
      | some d => { st3 with direction := d }
      | none => st3
    set_state_ports_phase env st4 node version

/-- The XML constructor `IO::IO (Session&, const XMLNode&, DataType, bool)`:
a fresh IO (input direction, empty ports) that applies `set_state` with the
current loading version and then sets up its bundle. -/
def fresh_io (dt : DataType) (sendish : Bool) : IOState :=
  { name := "unnamed io", ident := 0, direction := Direction.Input, default_type := dt,
    sendish := sendish, pretty_name := "", audio_channel_names := [],
    ports := ⟨[], []⟩, bundle := ⟨"", []⟩ }

def io_from_xml (env : Env) (node : XMLNode) (dt : DataType) (sendish : Bool) (version : Nat) :
    Int × IOState × List Event :=
  let r := set_state env (fresh_io dt sendish) node version
  (r.1, { r.2.1 with bundle := setup_bundle env r.2.1 }, r.2.2)

/-! ## Helper lemmas -/

/-- Maximum of a list of naturals, 0 for the empty list (the accumulator
shape of the latency loops). -/
def natListMax (l : List Nat) : Nat := l.foldl max 0

theorem foldl_max_eq (l : List Nat) : ∀ m : Nat, l.foldl max m = max m (natListMax l) := by
  induction l with
  | nil => intro m; simp [natListMax]
  | cons x xs ih =>
    intro m
    simp only [natListMax, List.foldl_cons]
    rw [ih (max m x), ih (max 0 x)]
    simp [max_assoc]

theorem natListMax_cons (x : Nat) (l : List Nat) :
    natListMax (x :: l) = max x (natListMax l) := by
  simp only [natListMax, List.foldl_cons]
  rw [foldl_max_eq]
  simp [natListMax]

theorem foldl_if_max {α : Type} (f : α → Nat) (l : List α) :
    ∀ a : Nat, l.foldl (fun m p => if f p > m then f p else m) a =
      max a (natListMax (l.map f)) := by
  induction l with
  | nil => intro a; simp [natListMax]
  | cons x xs ih =>
    intro a
    simp only [List.foldl_cons, List.map_cons, natListMax_cons]
    rw [ih]
    by_cases h : f x > a
    · simp only [if_pos h]
      rw [← max_assoc, max_eq_right (Nat.le_of_lt h)]
    · simp only [if_neg h]
      rw [← max_assoc, max_eq_left (Nat.le_of_not_lt h)]

/-! ### Concrete instances used by the witnesses -/

/-- A benign environment: every backend operation succeeds, no observer
vetoes. -/
def envW : Env :=
  { port_name_size := 100, my_name := "ardour",
    regOk := fun _ _ => true, veto := fun _ => none,
    connectOk := fun _ _ => true, disconnectOk := fun _ _ => true,
    initial_connect_or_deletion_in_progress := true,
    find_possible_bundle := fun _ => none }

/-- The benign environment with an observer that vetoes every count change. -/
def envVeto : Env := { envW with veto := fun _ => some 1 }

/-- A MIDI port of a one-MIDI-port IO. -/
def portM1 : Port := newPort "trk/midi_in 1" DataType.midi

/-- An input IO already holding one MIDI port. -/
def stMidi1 : IOState :=
  ⟨"trk", 1, Direction.Input, DataType.audio, false, "", [], ⟨[], [portM1]⟩, ⟨"", []⟩⟩

/-- An audio port of a one-audio-port IO. -/
def portA1 : Port := newPort "trk/audio_in 1" DataType.audio

/-- A port not owned by `stAudio1`. -/
def portB9 : Port := newPort "other/audio_out 1" DataType.audio

/-- An input IO holding one audio port. -/
def stAudio1 : IOState :=
  ⟨"trk", 1, Direction.Input, DataType.audio, false, "", [], ⟨[portA1], []⟩, ⟨"", []⟩⟩

theorem cl_first_of_any (fp : Bool) (l : List Port) (h : l.any Port.connected = true) :
    ∀ m, cl_first fp l m = (0, true) := by
  induction l with
  | nil => simp at h
  | cons p ps ih =>
    intro m
    simp only [List.any_cons, Bool.or_eq_true] at h
    by_cases hp : p.connected
    · simp [cl_first, hp]
    · rcases h with h | h
      · exact absurd h hp
      · simp [cl_first, hp, ih h]

theorem cl_first_of_none (fp : Bool) (l : List Port) (h : l.any Port.connected = false) :
    ∀ m, cl_first fp l m =
      (l.foldl (fun a p => if (p.private_latency_range fp).lmax > a
                           then (p.private_latency_range fp).lmax else a) m, false) := by
  induction l with
  | nil => intro m; simp [cl_first]
  | cons p ps ih =>
    intro m
    simp only [List.any_cons, Bool.or_eq_false_iff] at h
    simp [cl_first, h.1, List.foldl_cons, ih h.2]

/-- Claim C3: `connected_latency(for_playback)` returns the maximum connected
latency range upper bound over all ports when at least one port is connected
(private latencies ignored entirely); otherwise the maximum private latency
upper bound — the same value `latency()` computes when the side queried
matches the IO's direction — and 0 for an empty `PortSet`. -/
theorem c3_connected_latency (st : IOState) (fp : Bool) :
    (st.ports.list.any Port.connected = true →
      connected_latency st fp =
        natListMax (st.ports.list.map (fun p => (p.get_connected_latency_range fp).lmax)))
    ∧ (st.ports.list.any Port.connected = false →
        connected_latency st fp =
          natListMax (st.ports.list.map (fun p => (p.private_latency_range fp).lmax))
        ∧ (fp = decide (st.direction = Direction.Output) → connected_latency st fp = latency st))
    ∧ (st.ports.list = [] → connected_latency st fp = 0) := by
  refine ⟨?_, ?_, ?_⟩
  · intro h
    unfold connected_latency
    rw [cl_first_of_any fp _ h 0, if_pos rfl]
    rw [foldl_if_max (fun (p : Port) => (p.get_connected_latency_range fp).lmax)]
    simp
  · intro h
    constructor
    · unfold connected_latency
      rw [cl_first_of_none fp _ h 0, if_neg (fun hc => Bool.false_ne_true hc)]
      rw [foldl_if_max (fun (p : Port) => (p.private_latency_range fp).lmax)]
      simp
    · intro hfp
      unfold connected_latency latency
      rw [cl_first_of_none fp _ h 0, if_neg (fun hc => Bool.false_ne_true hc)]
      rw [hfp]
  · intro h
    unfold connected_latency
    rw [h]
    simp [cl_first]

/-- A connected port with connected-latency maximum 42. -/
def portConn42 : Port := ⟨"c", DataType.audio, ["z"], ⟨0, 7⟩, ⟨0, 0⟩, ⟨0, 42⟩, ⟨0, 0⟩⟩

/-- An unconnected port with private playback latency maximum 9. -/
def portPriv9 : Port := ⟨"n", DataType.audio, [], ⟨0, 9⟩, ⟨0, 0⟩, ⟨0, 0⟩, ⟨0, 0⟩⟩

/-- A two-port output IO used to instantiate claim C3. -/
def stL3 : IOState :=
  ⟨"lat", 0, Direction.Output, DataType.audio, false, "", [],
   ⟨[portPriv9, portConn42], []⟩, ⟨"", []⟩⟩

/-- The same IO with the connected port disconnected. -/
def stL3n : IOState :=
  ⟨"lat", 0, Direction.Output, DataType.audio, false, "", [],
   ⟨[portPriv9, { portConn42 with connections := [] }], []⟩, ⟨"", []⟩⟩

/-- Claim C3 witness: a two-port output IO where one port is connected with
connected latency 42 (the other contributing private latency 9): the
connected maximum wins; with the connection removed the private maximum is
reported and coincides with `latency()`. -/
theorem c3_witness :
    (connected_latency stL3 true = 42 ∧ connected_latency stL3n true = 9
      ∧ connected_latency stL3n true = latency stL3n) := by
  have h1 := (c3_connected_latency stL3 true).1 (by decide)
  have h2 := ((c3_connected_latency stL3n true).2.1 (by decide)).1
  have h3 := ((c3_connected_latency stL3n true).2.1 (by decide)).2 (by decide)
  refine ⟨?_, ?_, h3⟩
  · rw [h1]; decide
  · rw [h2]; decide

/-- Claim C10: calling `ensure_ports` with the current port count and
`clear = false` takes the fast path — result 0, state entirely unchanged
(ports and bundle), and an empty event trace (no backend call, no
`PortCountChanged`, no `changed`, no dirty mark). -/
theorem c10_ensure_ports_fast_path (env : Env) (st : IOState) :
    ensure_ports env st st.ports.count false = (0, st, []) := by
  unfold ensure_ports
  rw [if_pos ⟨rfl, rfl⟩]

/-- Claim C6: `add_port` with type MIDI on an IO already holding a MIDI port
fails with -1 before any mutation — state unchanged, no events; and
`can_add_port MIDI` holds exactly when the current MIDI count is zero. -/
theorem c6_midi_cap (env : Env) (st : IOState) (dest : String) :
    (1 ≤ st.ports.count.n_midi → add_port env st dest DataType.midi = (-1, st, []))
    ∧ (can_add_port st DataType.midi = true ↔ st.ports.count.n_midi = 0) := by
  constructor
  · intro h
    unfold add_port
    have hc : can_add_port st DataType.midi = false := by
      unfold can_add_port
      simp only [decide_eq_false_iff_not]
      omega
    rw [if_neg (by decide : ¬ (DataType.midi = DataType.nil)), if_pos (by rw [hc]; rfl)]
  · unfold can_add_port
    simp only [decide_eq_true_eq]
    omega

/-- Claim C6 witness: an input IO with one MIDI port. -/
theorem c6_witness :
    add_port envW stMidi1 "" DataType.midi = (-1, stMidi1, [])
    ∧ (can_add_port stMidi1 DataType.midi = true ↔ stMidi1.ports.count.n_midi = 0) := by
  exact ⟨(c6_midi_cap envW stMidi1 "").1 (by decide), (c6_midi_cap envW stMidi1 "").2⟩

/-- Claim C7: a truthy observer veto of the `PortCountChanging` pre-check
makes `add_port` and `remove_port` return -1 with the state unchanged and
an empty event trace: no backend registration or unregistration was
attempted, no `PortCountChanged` or `changed` notification was emitted, and
the session was not dirtied. -/
theorem c7_veto_aborts (env : Env) (st : IOState) (dest : String) (dtype : DataType) (port : Port) :
    (vetoTruthy env
        (st.ports.count.set (if dtype = DataType.nil then st.default_type else dtype)
          (st.ports.count.get (if dtype = DataType.nil then st.default_type else dtype) + 1)) = true →
      add_port env st dest dtype = (-1, st, []))
    ∧ (vetoTruthy env
          (st.ports.count.set port.ptype (st.ports.count.get port.ptype - 1)) = true →
        remove_port env st port = (-1, st, [])) := by
  constructor
  · intro h
    unfold add_port
    by_cases hc : can_add_port st (if dtype = DataType.nil then st.default_type else dtype)
    · rw [if_neg (by rw [hc]; decide), if_pos h]
    · rw [if_pos (by rw [Bool.not_eq_true] at hc; rw [hc]; rfl)]
  · intro h
    unfold remove_port
    rw [if_pos h]

/-- Claim C7 witness: an always-vetoing observer environment on a one-port
audio IO. -/
theorem c7_witness :
    add_port envVeto stAudio1 "" DataType.audio = (-1, stAudio1, [])
    ∧ remove_port envVeto stAudio1 portA1 = (-1, stAudio1, []) := by
  exact ⟨(c7_veto_aborts envVeto stAudio1 "" DataType.audio portA1).1 (by decide),
         (c7_veto_aborts envVeto stAudio1 "" DataType.audio portA1).2 (by decide)⟩

/-- Claim C8: `connect` and `disconnect` with an empty target name or a null
own-port handle are no-op successes (0, unchanged state, no events); with a
non-null port not contained in the IO's current snapshot both return -1
without any backend call and without a notification. -/
theorem c8_connect_validation (env : Env) (st : IOState) (other : String) (p : Port) :
    (io_connect env st none other = (0, st, []) ∧ io_disconnect env st none other = (0, st, []))
    ∧ (io_connect env st (some p) "" = (0, st, [])
        ∧ io_disconnect env st (some p) "" = (0, st, []))
    ∧ (other.length ≠ 0 → st.ports.containsP p = false →
        io_connect env st (some p) other = (-1, st, [])
        ∧ io_disconnect env st (some p) other = (-1, st, [])) := by
  refine ⟨⟨rfl, rfl⟩, ⟨rfl, rfl⟩, ?_⟩
  intro hlen hmem
  constructor
  · simp only [io_connect]
    rw [if_neg hlen, if_pos (by rw [hmem]; rfl)]
  · simp only [io_disconnect]
    rw [if_neg hlen, if_pos (by rw [hmem]; rfl)]

/-- Claim C8 witness: a port foreign to a one-port IO is rejected; empty
name and null handle are accepted as no-ops. -/
theorem c8_witness :
    (io_connect envW stAudio1 none "x" = (0, stAudio1, [])
      ∧ io_disconnect envW stAudio1 none "x" = (0, stAudio1, []))
    ∧ (io_connect envW stAudio1 (some portB9) "x" = (-1, stAudio1, [])
        ∧ io_disconnect envW stAudio1 (some portB9) "x" = (-1, stAudio1, [])) := by
  exact ⟨((c8_connect_validation envW stAudio1 "x" portB9).1),
         ((c8_connect_validation envW stAudio1 "x" portB9).2.2 (by decide) (by decide))⟩

/-! ### Claim C2: the port name allocator -/

/-- The names currently present in a `PortSet`. -/
def PortSet.names (ps : PortSet) : List String := ps.list.map Port.name

theorem list_subset_add (ps : PortSet) (q : Port) : ∀ p ∈ ps.list, p ∈ (ps.add q).list := by
  intro p hp
  simp only [PortSet.list, List.mem_append] at hp
  unfold PortSet.add
  match q.ptype with
  | .audio => simp only [PortSet.list, List.mem_append, List.mem_singleton]; tauto
  | .midi => simp only [PortSet.list, List.mem_append, List.mem_singleton]; tauto
  | .nil => simp only [PortSet.list, List.mem_append]; tauto

theorem names_subset_add (ps : PortSet) (q : Port) : ∀ x ∈ ps.names, x ∈ (ps.add q).names := by
  intro x hx
  simp only [PortSet.names, List.mem_map] at hx ⊢
  obtain ⟨p, hp, hpn⟩ := hx
  exact ⟨p, list_subset_add ps q p hp, hpn⟩

theorem name_mem_add (ps : PortSet) (q : Port) (h : q.ptype ≠ DataType.nil) :
    q.name ∈ (ps.add q).names := by
  simp only [PortSet.names, PortSet.list, PortSet.add]
  match hq : q.ptype with
  | .audio => simp
  | .midi => simp
  | .nil => exact absurd hq h

theorem fph_loop_spec (env : Env) (ports : PortSet) (base : String) :
    ∀ fuel n, n + fuel = 9999 →
      n ≤ fph_loop env ports base fuel n ∧ fph_loop env ports base fuel n ≤ 9999 ∧
        (fph_loop env ports base fuel n < 9999 →
          nameTaken env ports base (fph_loop env ports base fuel n) = false) ∧
        (∀ m, n ≤ m → m < fph_loop env ports base fuel n → nameTaken env ports base m = true) := by
  intro fuel
  induction fuel with
  | zero =>
    intro n hn
    simp only [fph_loop]
    refine ⟨Nat.le_refl n, by omega, fun h => absurd h (by omega), fun m h1 h2 => absurd h2 (by omega)⟩
  | succ k ih =>
    intro n hn
    by_cases ht : nameTaken env ports base n
    · have heq : fph_loop env ports base (k + 1) n = fph_loop env ports base k (n + 1) := by
        simp [fph_loop, ht]
      rw [heq]
      have hih := ih (n + 1) (by omega)
      refine ⟨Nat.le_trans (Nat.le_succ n) hih.1, hih.2.1, hih.2.2.1, ?_⟩
      intro m hm1 hm2
      rcases Nat.eq_or_lt_of_le hm1 with h | h
      · exact h ▸ ht
      · exact hih.2.2.2 m h hm2
    · have heq : fph_loop env ports base (k + 1) n = n := by
        simp [fph_loop, ht]
      rw [heq]
      refine ⟨Nat.le_refl n, by omega, fun _ => by simpa using ht, ?_⟩
      intro m hm1 hm2
      omega

theorem find_port_hole_spec (env : Env) (ports : PortSet) (base : String) :
    1 ≤ find_port_hole env ports base ∧ find_port_hole env ports base ≤ 9999 ∧
      (find_port_hole env ports base < 9999 →
        nameTaken env ports base (find_port_hole env ports base) = false) ∧
      (∀ m, 1 ≤ m → m < find_port_hole env ports base → nameTaken env ports base m = true) := by
  unfold find_port_hole
  by_cases he : ports.isEmpty
  · rw [if_pos he]
    have hlen : ports.audio.length + ports.midi.length = 0 := by
      unfold PortSet.isEmpty PortSet.num_ports at he
      simpa using he
    have ha : ports.audio = [] := List.length_eq_zero.mp (by omega)
    have hm : ports.midi = [] := List.length_eq_zero.mp (by omega)
    have hnt : ∀ m, nameTaken env ports base m = false := by
      intro m
      unfold nameTaken PortSet.list
      simp [ha, hm]
    exact ⟨Nat.le_refl 1, by omega, fun _ => hnt 1, fun m _ hm => by omega⟩
  · rw [if_neg he]
    exact fph_loop_spec env ports base 9998 1 (by omega)

theorem build_name_fresh (env : Env) (st : IOState) (ports : PortSet) (t : DataType)
    (h : find_port_hole env ports (legal_base env st t) < 9999) :
    ∀ p ∈ ports.list, p.name ≠ build_legal_port_name env st ports t := by
  intro p hp
  have := (find_port_hole_spec env ports (legal_base env st t)).2.2.1 h
  unfold nameTaken at this
  rw [List.any_eq_false] at this
  have hp2 := this p hp
  simp only [beq_iff_eq] at hp2
  intro hc
  exact hp2 hc

/-- The sequence of names produced by `N` consecutive allocations against
the same growing `PortSet` (each allocated name is registered and its port
added before the next allocation). -/
def alloc_seq (env : Env) (st : IOState) (t : DataType) : Nat → PortSet → List String
  | 0, _ => []
  | k + 1, ps =>
    let nm := build_legal_port_name env st ps t
    nm :: alloc_seq env st t k (ps.add (newPort nm t))

/-- Whether none of the `N` allocations saturates the 4-digit number space
(every hole found is below 9999, the claim's own "giving up" cap). -/
def alloc_ok (env : Env) (st : IOState) (t : DataType) : Nat → PortSet → Bool
  | 0, _ => true
  | k + 1, ps =>
    decide (find_port_hole env ps (legal_base env st t) < 9999) &&
      alloc_ok env st t k (ps.add (newPort (build_legal_port_name env st ps t) t))

theorem alloc_seq_fresh (env : Env) (st : IOState) (t : DataType) :
    ∀ N ps, alloc_ok env st t N ps = true →
      ∀ nm ∈ alloc_seq env st t N ps, nm ∉ ps.names := by
  intro N
  induction N with
  | zero => intro ps _ nm hnm; simp [alloc_seq] at hnm
  | succ k ih =>
    intro ps hok nm hnm
    simp only [alloc_ok, Bool.and_eq_true, decide_eq_true_eq] at hok
    simp only [alloc_seq, List.mem_cons] at hnm
    rcases hnm with h | h
    · subst h
      intro hmem
      unfold PortSet.names at hmem
      rw [List.mem_map] at hmem
      obtain ⟨p, hp, hpn⟩ := hmem
      exact build_name_fresh env st ps t hok.1 p hp hpn
    · intro hmem
      exact ih _ hok.2 nm h (names_subset_add ps _ nm hmem)

theorem alloc_seq_distinct (env : Env) (st : IOState) (t : DataType) (hT : t ≠ DataType.nil) :
    ∀ N ps, alloc_ok env st t N ps = true →
      (alloc_seq env st t N ps).Pairwise (fun a b => a ≠ b) := by
  intro N
  induction N with
  | zero => intro ps _; simp [alloc_seq]
  | succ k ih =>
    intro ps hok
    simp only [alloc_ok, Bool.and_eq_true, decide_eq_true_eq] at hok
    simp only [alloc_seq, List.pairwise_cons]
    refine ⟨?_, ih _ hok.2⟩
    intro nm hnm
    have hfresh := alloc_seq_fresh env st t k _ hok.2 nm hnm
    have hmem : (build_legal_port_name env st ps t) ∈
        (ps.add (newPort (build_legal_port_name env st ps t) t)).names :=
      name_mem_add ps _ hT
    intro hc
    exact hfresh (hc ▸ hmem)

theorem strTake_length (s : String) (n : Nat) : (strTake s n).length ≤ n := by
  unfold strTake String.length
  simp

/-- The environment of the C2 counterexample. -/
def envC2 : Env := { envW with port_name_size := 10, my_name := "abcdefgh" }

/-- The IO of the C2 counterexample. -/
def stC2 : IOState :=
  ⟨"x", 1, Direction.Input, DataType.audio, false, "", [], ⟨[], []⟩, ⟨"", []⟩⟩

/-- Claim C2 counterexample: the claim's length bound — produced name length
at most the backend's maximum port-name size *minus the engine's client-name
length* — fails: with a 10-character backend limit and an 8-character client
name the allocator still produces the `snprintf`-truncated 10-character
name `"x/audio_in"`, exceeding 10 - 8 = 2 (the internally computed `limit`
is negative, so the `%.*s` precision is ignored; a 4-digit port number
overruns the same bound even with a positive `limit`). -/
theorem c2_counterexample :
    ¬ ((build_legal_port_name envC2 stC2 ⟨[], []⟩ DataType.audio).length ≤
        envC2.port_name_size - envC2.my_name.length) := by decide

/-- Claim C2 (amended): `build_legal_port_name` appends a numeric suffix
found by `find_port_hole`, which returns the smallest free number starting
at 1 (every smaller one being taken), giving up at 9999 past the 4-digit
space; as long as no allocation saturates that space, N consecutive
allocations against the same growing PortSet yield pairwise-distinct names;
every produced name's length is at most the backend's advertised maximum
port-name size (not that size minus the client-name length); and the output
is a pure function of the owner name, direction, type and existing set
(deterministic). -/
theorem c2_amended_allocator (env : Env) (st : IOState) (ports : PortSet) (t : DataType) (N : Nat) :
    (1 ≤ find_port_hole env ports (legal_base env st t)
      ∧ find_port_hole env ports (legal_base env st t) ≤ 9999
      ∧ (find_port_hole env ports (legal_base env st t) < 9999 →
          nameTaken env ports (legal_base env st t)
            (find_port_hole env ports (legal_base env st t)) = false)
      ∧ (∀ m, 1 ≤ m → m < find_port_hole env ports (legal_base env st t) →
          nameTaken env ports (legal_base env st t) m = true))
    ∧ (find_port_hole env ports (legal_base env st t) < 9999 →
        ∀ p ∈ ports.list, p.name ≠ build_legal_port_name env st ports t)
    ∧ (t ≠ DataType.nil → alloc_ok env st t N ports = true →
        (alloc_seq env st t N ports).Pairwise (fun a b => a ≠ b))
    ∧ (build_legal_port_name env st ports t).length ≤ env.port_name_size := by
  refine ⟨find_port_hole_spec env ports (legal_base env st t), ?_, ?_, ?_⟩
  · exact build_name_fresh env st ports t
  · intro hT hok
    exact alloc_seq_distinct env st t hT N ports hok
  · unfold build_legal_port_name portCandidate
    exact strTake_length _ _

/-- The IO of the C2 witness. -/
def stC2W : IOState :=
  ⟨"trk", 1, Direction.Input, DataType.audio, false, "", [], ⟨[], []⟩, ⟨"", []⟩⟩

/-- Claim C2 witness: three consecutive audio allocations on an empty set of
a normally configured engine are pairwise distinct, and the remaining parts
instantiated at the same inputs. -/
theorem c2_witness :
    (alloc_seq envW stC2W DataType.audio 3 ⟨[], []⟩).Pairwise (fun a b => a ≠ b)
    ∧ (1 ≤ find_port_hole envW ⟨[], []⟩ (legal_base envW stC2W DataType.audio))
    ∧ (build_legal_port_name envW stC2W ⟨[], []⟩ DataType.audio).length ≤ envW.port_name_size := by
  have h := c2_amended_allocator envW stC2W ⟨[], []⟩ DataType.audio 3
  exact ⟨h.2.2.1 (by decide) (by decide), h.1.1, h.2.2.2⟩

/-! ### Claim C1: `ensure_ports` establishes exactly the requested counts -/

theorem grow_loop_audio (env : Env) (st : IOState) (n : Nat) :
    ∀ k p, k = n - p.audio.length →
      (((grow_loop env st DataType.audio n k p).2.2 = true →
        (grow_loop env st DataType.audio n k p).1.audio.length = max p.audio.length n
          ∧ (grow_loop env st DataType.audio n k p).1.midi = p.midi)
      ∧ ((∀ s, env.regOk DataType.audio s = true) →
          (grow_loop env st DataType.audio n k p).2.2 = true)) := by
  intro k
  induction k with
  | zero =>
    intro p hk
    have hle : n ≤ p.audio.length := by omega
    exact ⟨fun _ => ⟨by simp [grow_loop, Nat.max_eq_left hle], by simp [grow_loop]⟩,
           fun _ => by simp [grow_loop]⟩
  | succ k ih =>
    intro p hk
    have hlt : p.audio.length < n := by omega
    have hguard : p.count.get DataType.audio < n := by
      simpa [PortSet.count, ChanCount.get] using hlt
    by_cases hreg : env.regOk DataType.audio (build_legal_port_name env st p DataType.audio)
    · have hlen1 : (p.add (newPort (build_legal_port_name env st p DataType.audio)
          DataType.audio)).audio.length = p.audio.length + 1 := by
        simp [PortSet.add, newPort]
      have heq : grow_loop env st DataType.audio n (k + 1) p =
          (let g := grow_loop env st DataType.audio n k
            (p.add (newPort (build_legal_port_name env st p DataType.audio) DataType.audio))
           (g.1, Event.registerPort DataType.audio (build_legal_port_name env st p DataType.audio)
             :: g.2.1, g.2.2)) := by
        simp [grow_loop, hguard, hreg]
      have hih := ih (p.add (newPort (build_legal_port_name env st p DataType.audio)
        DataType.audio)) (by omega)
      constructor
      · intro hok
        have hok2 : (grow_loop env st DataType.audio n k
            (p.add (newPort (build_legal_port_name env st p DataType.audio)
              DataType.audio))).2.2 = true := by
          rw [heq] at hok
          exact hok
        have h1 := hih.1 hok2
        rw [heq]
        refine ⟨?_, ?_⟩
        · show (grow_loop env st DataType.audio n k
            (p.add (newPort (build_legal_port_name env st p DataType.audio)
              DataType.audio))).1.audio.length = max p.audio.length n
          rw [h1.1, hlen1, Nat.max_eq_right hlt, Nat.max_eq_right (Nat.le_of_lt hlt)]
        · show (grow_loop env st DataType.audio n k
            (p.add (newPort (build_legal_port_name env st p DataType.audio)
              DataType.audio))).1.midi = p.midi
          rw [h1.2]
          rfl
      · intro hall
        rw [heq]
        show (grow_loop env st DataType.audio n k
          (p.add (newPort (build_legal_port_name env st p DataType.audio)
            DataType.audio))).2.2 = true
        exact hih.2 hall
    · have heq : grow_loop env st DataType.audio n (k + 1) p =
          (p, [Event.registerPort DataType.audio (build_legal_port_name env st p DataType.audio)],
           false) := by
        simp [grow_loop, hguard, hreg]
      rw [heq]
      exact ⟨fun h => absurd h (by simp), fun hall => absurd (hall _) (by simpa using hreg)⟩

theorem grow_loop_midi (env : Env) (st : IOState) (n : Nat) :
    ∀ k p, k = n - p.midi.length →
      (((grow_loop env st DataType.midi n k p).2.2 = true →
        (grow_loop env st DataType.midi n k p).1.midi.length = max p.midi.length n
          ∧ (grow_loop env st DataType.midi n k p).1.audio = p.audio)
      ∧ ((∀ s, env.regOk DataType.midi s = true) →
          (grow_loop env st DataType.midi n k p).2.2 = true)) := by
  intro k
  induction k with
  | zero =>
    intro p hk
    have hle : n ≤ p.midi.length := by omega
    exact ⟨fun _ => ⟨by simp [grow_loop, Nat.max_eq_left hle], by simp [grow_loop]⟩,
           fun _ => by simp [grow_loop]⟩
  | succ k ih =>
    intro p hk
    have hlt : p.midi.length < n := by omega
    have hguard : p.count.get DataType.midi < n := by
      simpa [PortSet.count, ChanCount.get] using hlt
    by_cases hreg : env.regOk DataType.midi (build_legal_port_name env st p DataType.midi)
    · have hlen1 : (p.add (newPort (build_legal_port_name env st p DataType.midi)
          DataType.midi)).midi.length = p.midi.length + 1 := by
        simp [PortSet.add, newPort]
      have heq : grow_loop env st DataType.midi n (k + 1) p =
          (let g := grow_loop env st DataType.midi n k
            (p.add (newPort (build_legal_port_name env st p DataType.midi) DataType.midi))
           (g.1, Event.registerPort DataType.midi (build_legal_port_name env st p DataType.midi)
             :: g.2.1, g.2.2)) := by
        simp [grow_loop, hguard, hreg]
      have hih := ih (p.add (newPort (build_legal_port_name env st p DataType.midi)
        DataType.midi)) (by omega)
      constructor
      · intro hok
        have hok2 : (grow_loop env st DataType.midi n k
            (p.add (newPort (build_legal_port_name env st p DataType.midi)
              DataType.midi))).2.2 = true := by
          rw [heq] at hok
          exact hok
        have h1 := hih.1 hok2
        rw [heq]
        refine ⟨?_, ?_⟩
        · show (grow_loop env st DataType.midi n k
            (p.add (newPort (build_legal_port_name env st p DataType.midi)
              DataType.midi))).1.midi.length = max p.midi.length n
          rw [h1.1, hlen1, Nat.max_eq_right hlt, Nat.max_eq_right (Nat.le_of_lt hlt)]
        · show (grow_loop env st DataType.midi n k
            (p.add (newPort (build_legal_port_name env st p DataType.midi)
              DataType.midi))).1.audio = p.audio
          rw [h1.2]
          rfl
      · intro hall
        rw [heq]
        show (grow_loop env st DataType.midi n k
          (p.add (newPort (build_legal_port_name env st p DataType.midi)
            DataType.midi))).2.2 = true
        exact hih.2 hall
    · have heq : grow_loop env st DataType.midi n (k + 1) p =
          (p, [Event.registerPort DataType.midi (build_legal_port_name env st p DataType.midi)],
           false) := by
        simp [grow_loop, hguard, hreg]
      rw [heq]
      exact ⟨fun h => absurd h (by simp), fun hall => absurd (hall _) (by simpa using hreg)⟩

theorem grow_ports_audio (env : Env) (st : IOState) (n : Nat) (p : PortSet) :
    ((grow_ports env st DataType.audio n p).2.2 = true →
      (grow_ports env st DataType.audio n p).1.audio.length = max p.audio.length n
        ∧ (grow_ports env st DataType.audio n p).1.midi = p.midi)
    ∧ ((∀ s, env.regOk DataType.audio s = true) →
        (grow_ports env st DataType.audio n p).2.2 = true) :=
  grow_loop_audio env st n (n - p.count.get DataType.audio) p rfl

theorem grow_ports_midi (env : Env) (st : IOState) (n : Nat) (p : PortSet) :
    ((grow_ports env st DataType.midi n p).2.2 = true →
      (grow_ports env st DataType.midi n p).1.midi.length = max p.midi.length n
        ∧ (grow_ports env st DataType.midi n p).1.audio = p.audio)
    ∧ ((∀ s, env.regOk DataType.midi s = true) →
        (grow_ports env st DataType.midi n p).2.2 = true) :=
  grow_loop_midi env st n (n - p.count.get DataType.midi) p rfl

theorem shrink_audio_eq (p : PortSet) (n : Nat) :
    shrink_ports p DataType.audio n =
      (⟨p.audio.take n, p.midi⟩,
       (p.audio.drop n).reverse.map (fun q => Event.unregisterPort q.name),
       decide (n < p.audio.length)) := rfl

theorem shrink_midi_eq (p : PortSet) (n : Nat) :
    shrink_ports p DataType.midi n =
      (⟨p.audio, p.midi.take n⟩,
       (p.midi.drop n).reverse.map (fun q => Event.unregisterPort q.name),
       decide (n < p.midi.length)) := rfl

theorem ensure_types_spec (env : Env) (st : IOState) (count : ChanCount) (p0 : PortSet)
    (evs0 : List Event) (chg0 : Bool) :
    ((ensure_types env st count dataTypes p0 evs0 chg0).2.2.2 = true →
      (ensure_types env st count dataTypes p0 evs0 chg0).1.count = count
      ∧ ((ensure_types env st count dataTypes p0 evs0 chg0).2.2.1 = false →
          chg0 = false ∧ p0.count = count))
    ∧ ((∀ t s, env.regOk t s = true) →
        (ensure_types env st count dataTypes p0 evs0 chg0).2.2.2 = true) := by
  simp only [dataTypes, ensure_types, shrink_audio_eq, shrink_midi_eq]
  by_cases h1 : (grow_ports env st DataType.audio (count.get DataType.audio)
      ⟨List.take (count.get DataType.audio) p0.audio, p0.midi⟩).2.2 = true
  · rw [if_pos h1]
    by_cases h2 : (grow_ports env st DataType.midi (count.get DataType.midi)
        ⟨(grow_ports env st DataType.audio (count.get DataType.audio)
            ⟨List.take (count.get DataType.audio) p0.audio, p0.midi⟩).1.audio,
          List.take (count.get DataType.midi)
            (grow_ports env st DataType.audio (count.get DataType.audio)
              ⟨List.take (count.get DataType.audio) p0.audio, p0.midi⟩).1.midi⟩).2.2 = true
    · rw [if_pos h2]
      have hga := (grow_ports_audio env st (count.get DataType.audio)
        ⟨List.take (count.get DataType.audio) p0.audio, p0.midi⟩).1 h1
      have hgm := (grow_ports_midi env st (count.get DataType.midi)
        ⟨(grow_ports env st DataType.audio (count.get DataType.audio)
            ⟨List.take (count.get DataType.audio) p0.audio, p0.midi⟩).1.audio,
          List.take (count.get DataType.midi)
            (grow_ports env st DataType.audio (count.get DataType.audio)
              ⟨List.take (count.get DataType.audio) p0.audio, p0.midi⟩).1.midi⟩).1 h2
      simp only [List.length_take] at hga hgm
      have ea : (grow_ports env st DataType.midi (count.get DataType.midi)
          ⟨(grow_ports env st DataType.audio (count.get DataType.audio)
              ⟨List.take (count.get DataType.audio) p0.audio, p0.midi⟩).1.audio,
            List.take (count.get DataType.midi)
              (grow_ports env st DataType.audio (count.get DataType.audio)
                ⟨List.take (count.get DataType.audio) p0.audio, p0.midi⟩).1.midi⟩).1.audio.length =
          (grow_ports env st DataType.audio (count.get DataType.audio)
            ⟨List.take (count.get DataType.audio) p0.audio, p0.midi⟩).1.audio.length := by
        rw [hgm.2]
      have em : (grow_ports env st DataType.audio (count.get DataType.audio)
          ⟨List.take (count.get DataType.audio) p0.audio, p0.midi⟩).1.midi.length =
          p0.midi.length := by
        rw [hga.2]
      constructor
      · intro _
        constructor
        · simp only [PortSet.count]
          have h3 := hga.1
          have h4 := hgm.1
          cases count with
          | mk na nm =>
            simp only [ChanCount.get] at h3 h4 ea em ⊢
            simp only [ChanCount.mk.injEq]
            constructor
            · omega
            · omega
        · intro hchg
          simp only [Bool.or_eq_false_iff, decide_eq_false_iff_not, PortSet.count,
            ChanCount.get, List.length_take] at hchg
          obtain ⟨⟨⟨⟨hc0, hs1⟩, hg1⟩, hs2⟩, hg2⟩ := hchg
          refine ⟨hc0, ?_⟩
          have h3 := hga.1
          have h4 := hgm.1
          simp only [PortSet.count]
          cases count with
          | mk na nm =>
            simp only [ChanCount.get] at h3 h4 ea em hs1 hg1 hs2 hg2 ⊢
            simp only [ChanCount.mk.injEq]
            constructor
            · omega
            · omega
      · intro _
        rfl
    · rw [if_neg h2]
      constructor
      · intro hok
        exact absurd hok (by simp)
      · intro hall
        exact absurd ((grow_ports_midi env st (count.get DataType.midi) _).2 (hall _)) h2
  · rw [if_neg h1]
    constructor
    · intro hok
      exact absurd hok (by simp)
    · intro hall
      exact absurd ((grow_ports_audio env st (count.get DataType.audio) _).2 (hall _)) h1

theorem clear_ports_count (p : PortSet) : (clear_ports p).1.count = p.count := by
  simp [clear_ports, PortSet.count]

theorem ensure_ports_locked_spec (env : Env) (st : IOState) (count : ChanCount) (clear : Bool) :
    ((ensure_ports_locked env st count clear).1 = 0 →
      (ensure_ports_locked env st count clear).2.1.ports.count = count
      ∧ ((ensure_ports_locked env st count clear).2.2.2 = false → st.ports.count = count))
    ∧ ((∀ t s, env.regOk t s = true) → (ensure_ports_locked env st count clear).1 = 0) := by
  have hspec := ensure_types_spec env st count st.ports [] false
  simp only [ensure_ports_locked]
  by_cases hok : (ensure_types env st count dataTypes st.ports [] false).2.2.2 = true
  · rw [if_pos hok]
    have hcnt := hspec.1 hok
    by_cases hclear : clear = true
    · rw [if_pos hclear]
      refine ⟨fun _ => ⟨?_, ?_⟩, fun _ => rfl⟩
      · show (clear_ports (ensure_types env st count dataTypes st.ports [] false).1).1.count = count
        rw [clear_ports_count]
        exact hcnt.1
      · intro hchg
        exact (hcnt.2 hchg).2
    · rw [if_neg hclear]
      refine ⟨fun _ => ⟨hcnt.1, fun hchg => (hcnt.2 hchg).2⟩, fun _ => rfl⟩
  · rw [if_neg hok]
    refine ⟨fun hc => absurd hc (by simp), fun hall => absurd (hspec.2 hall) hok⟩

theorem ensure_ports_count (env : Env) (st : IOState) (c : ChanCount) (b : Bool)
    (h : ∀ t s, env.regOk t s = true) :
    (ensure_ports env st c b).1 = 0 ∧ (ensure_ports env st c b).2.1.ports.count = c := by
  unfold ensure_ports
  by_cases hfast : c = st.ports.count ∧ b = false
  · rw [if_pos hfast]
    exact ⟨rfl, hfast.1.symm⟩
  · rw [if_neg hfast]
    have hl := ensure_ports_locked_spec env st c b
    have hr0 : (ensure_ports_locked env st c b).1 = 0 := hl.2 h
    rw [if_neg (fun hc => hc hr0)]
    have hcnt := (hl.1 hr0).1
    by_cases hchg : (ensure_ports_locked env st c b).2.2.2 = true
    · rw [if_pos hchg]
      exact ⟨rfl, hcnt⟩
    · rw [if_neg hchg]
      exact ⟨rfl, hcnt⟩

/-- Claim C1: assuming every backend registration succeeds, each
`ensure_ports` call leaves the PortSet with exactly the requested per-type
counts; consequently, after any non-empty sequence of calls the counts are
exactly those of the most recent request — never stale, never over- or
under-shooting. -/
theorem c1_ensure_ports_counts (env : Env) (h : ∀ t s, env.regOk t s = true) :
    (∀ st c b, (ensure_ports env st c b).2.1.ports.count = c)
    ∧ (∀ st (reqs : List (ChanCount × Bool)) (hne : reqs ≠ []),
        ((reqs.foldl (fun s r => (ensure_ports env s r.1 r.2).2.1) st).ports.count =
          (reqs.getLast hne).1)) := by
  have key : ∀ st c b, (ensure_ports env st c b).2.1.ports.count = c :=
    fun st c b => (ensure_ports_count env st c b h).2
  refine ⟨key, ?_⟩
  intro st reqs
  induction reqs generalizing st with
  | nil => intro hne; exact absurd rfl hne
  | cons r rest ih =>
    intro hne
    match rest with
    | [] => simpa using key st r.1 r.2
    | r2 :: rest2 =>
      rw [List.foldl_cons, List.getLast_cons (by simp : r2 :: rest2 ≠ [])]
      exact ih ((ensure_ports env st r.1 r.2).2.1) (by simp)

/-- Claim C1 witness: requesting 2 audio / 0 MIDI and then 1 audio / 1 MIDI
on a fresh IO under an always-succeeding backend yields exactly the last
request's counts. -/
theorem c1_witness :
    (ensure_ports envW stC2W ⟨2, 0⟩ false).2.1.ports.count = ⟨2, 0⟩
    ∧ (([(⟨2, 0⟩, false), (⟨1, 1⟩, false)] : List (ChanCount × Bool)).foldl
        (fun s r => (ensure_ports envW s r.1 r.2).2.1) stC2W).ports.count = ⟨1, 1⟩ := by
  refine ⟨(c1_ensure_ports_counts envW (fun _ _ => rfl)).1 stC2W ⟨2, 0⟩ false, ?_⟩
  exact (c1_ensure_ports_counts envW (fun _ _ => rfl)).2 stC2W
    [(⟨2, 0⟩, false), (⟨1, 1⟩, false)] (by simp)

/-! ### Claim C4: bundle synchronization -/

/-- The invariant claimed by C4: the bundle's channel count equals the
PortSet's total port count. -/
def bundle_inv (st : IOState) : Prop :=
  st.bundle.channels.length = st.ports.count.n_total

instance (st : IOState) : Decidable (bundle_inv st) := by
  unfold bundle_inv
  infer_instance

theorem setup_bundle_count (env : Env) (st : IOState) :
    (setup_bundle env st).channels.length = st.ports.count.n_total := by
  simp [setup_bundle, dataTypes, ChanCount.n_total, PortSet.count, ChanCount.get]

theorem ensure_ports_locked_bundle (env : Env) (st : IOState) (count : ChanCount) (clear : Bool) :
    (ensure_ports_locked env st count clear).2.1.bundle = st.bundle := by
  simp only [ensure_ports_locked]
  by_cases hok : (ensure_types env st count dataTypes st.ports [] false).2.2.2 = true
  · rw [if_pos hok]
    by_cases hc : clear = true
    · rw [if_pos hc]
    · rw [if_neg hc]
  · rw [if_neg hok]

theorem ensure_ports_inv (env : Env) (st : IOState) (c : ChanCount) (b : Bool)
    (hinv : bundle_inv st) (h0 : (ensure_ports env st c b).1 = 0) :
    bundle_inv (ensure_ports env st c b).2.1 := by
  unfold ensure_ports at h0 ⊢
  by_cases hfast : c = st.ports.count ∧ b = false
  · rw [if_pos hfast]
    exact hinv
  · rw [if_neg hfast] at h0 ⊢
    by_cases hr : (ensure_ports_locked env st c b).1 ≠ 0
    · rw [if_pos hr] at h0
      exact absurd h0 (by simp)
    · rw [if_neg hr] at h0 ⊢
      rw [Classical.not_not] at hr
      have hspec := (ensure_ports_locked_spec env st c b).1 hr
      by_cases hchg : (ensure_ports_locked env st c b).2.2.2 = true
      · rw [if_pos hchg]
        show bundle_inv { (ensure_ports_locked env st c b).2.1 with
          bundle := setup_bundle env (ensure_ports_locked env st c b).2.1 }
        unfold bundle_inv
        simp only
        rw [setup_bundle_count]
      · rw [if_neg hchg]
        show bundle_inv (ensure_ports_locked env st c b).2.1
        unfold bundle_inv
        rw [ensure_ports_locked_bundle]
        rw [hspec.1]
        have hold := hspec.2 (Bool.not_eq_true _ ▸ hchg)
        unfold bundle_inv at hinv
        rw [hold] at hinv
        exact hinv

theorem bundle_inv_rebuilt (env : Env) (stX : IOState) :
    bundle_inv { stX with bundle := setup_bundle env stX } := by
  unfold bundle_inv
  simp only
  rw [setup_bundle_count]

theorem add_port_inv (env : Env) (st : IOState) (d : String) (t : DataType)
    (h0 : (add_port env st d t).1 = 0) : bundle_inv (add_port env st d t).2.1 := by
  simp only [add_port] at h0 ⊢
  split_ifs at h0 ⊢ <;>
    first
      | exact bundle_inv_rebuilt env _
      | simp_all

theorem remove_port_inv (env : Env) (st : IOState) (port : Port)
    (h0 : (remove_port env st port).1 = 0) : bundle_inv (remove_port env st port).2.1 := by
  simp only [remove_port] at h0 ⊢
  split_ifs at h0 ⊢ <;>
    first
      | exact bundle_inv_rebuilt env _
      | simp_all [IOChange.nonEmpty, IOChange.noChange]

theorem bundle_audio_names (env : Env) (st : IOState) (hn : st.audio_channel_names = [])
    (j : Nat) (hj : j < st.ports.audio.length) :
    (((setup_bundle env st).channels[j]?).map BundleChannel.name) =
      some (if st.ports.audio.length = 1 then "mono"
            else if st.ports.audio.length = 2 then (if j = 0 then "L" else "R")
            else toString (j + 1)) := by
  have hchan : (setup_bundle env st).channels =
      (List.range st.ports.audio.length).map (fun k =>
        ({ name := bundle_channel_name st k st.ports.audio.length DataType.audio,
           btype := DataType.audio,
           portname := make_port_name_non_relative env
             (((st.ports.audio.get? k).map Port.name).getD "") } : BundleChannel))
      ++ (List.range st.ports.midi.length).map (fun k =>
        ({ name := bundle_channel_name st k st.ports.midi.length DataType.midi,
           btype := DataType.midi,
           portname := make_port_name_non_relative env
             (((st.ports.midi.get? k).map Port.name).getD "") } : BundleChannel)) := by
    simp [setup_bundle, dataTypes, PortSet.count, ChanCount.get, PortSet.typed]
  rw [hchan]
  rw [List.getElem?_append_left (by simpa using hj)]
  rw [List.getElem?_map]
  rw [List.getElem?_range hj]
  simp only [Option.map]
  unfold bundle_channel_name
  rw [if_pos rfl, hn]
  simp only [List.length_nil]
  rw [if_neg (by omega)]
  have hj2 := hj
  generalize hN : st.ports.audio.length = N at hj2 ⊢
  rcases N with _ | N
  · omega
  rcases N with _ | N
  · simp
  rcases N with _ | N
  · simp
  · simp

/-- Claim C4: after every successful structural mutation the bundle's
channel count equals the PortSet's total port count (`setup_bundle` always
establishes the equality, the constructor runs it, and each of
`ensure_ports` / `add_port` / `remove_port` preserves it on success); and
for an audio IO with no user-assigned channel names the positional display
names are exactly "mono" for one audio channel, "L" then "R" in port order
for two, and the 1-based numeric index otherwise. -/
theorem c4_bundle_sync (env : Env) (st : IOState) (c : ChanCount) (b : Bool) (d : String)
    (t : DataType) (port : Port) (j : Nat) :
    ((setup_bundle env st).channels.length = st.ports.count.n_total)
    ∧ (bundle_inv st → (ensure_ports env st c b).1 = 0 → bundle_inv (ensure_ports env st c b).2.1)
    ∧ ((add_port env st d t).1 = 0 → bundle_inv (add_port env st d t).2.1)
    ∧ ((remove_port env st port).1 = 0 → bundle_inv (remove_port env st port).2.1)
    ∧ (st.audio_channel_names = [] → j < st.ports.audio.length →
        (((setup_bundle env st).channels[j]?).map BundleChannel.name) =
          some (if st.ports.audio.length = 1 then "mono"
                else if st.ports.audio.length = 2 then (if j = 0 then "L" else "R")
                else toString (j + 1))) :=
  ⟨setup_bundle_count env st,
   fun hinv h0 => ensure_ports_inv env st c b hinv h0,
   fun h0 => add_port_inv env st d t h0,
   fun h0 => remove_port_inv env st port h0,
   fun hn hj => bundle_audio_names env st hn j hj⟩

/-- A two-audio-port input IO whose bundle is in sync (two channels). -/
def stB2 : IOState :=
  ⟨"trk", 1, Direction.Input, DataType.audio, false, "", [],
   ⟨[newPort "trk/audio_in 1" DataType.audio, newPort "trk/audio_in 2" DataType.audio], []⟩,
   ⟨"trk in", [⟨"L", DataType.audio, "ardour:trk/audio_in 1"⟩,
               ⟨"R", DataType.audio, "ardour:trk/audio_in 2"⟩]⟩⟩

/-- Claim C4 witness: the bundle invariant survives a no-op `ensure_ports`,
a successful `add_port` and a successful `remove_port` on a synced
two-audio-port IO, and channel 0 of its rebuilt bundle is named "L". -/
theorem c4_witness :
    bundle_inv (ensure_ports envW stB2 ⟨2, 0⟩ false).2.1
    ∧ bundle_inv (add_port envW stB2 "" DataType.audio).2.1
    ∧ bundle_inv (remove_port envW stB2 (newPort "trk/audio_in 1" DataType.audio)).2.1
    ∧ (((setup_bundle envW stB2).channels[0]?).map BundleChannel.name) = some "L" := by
  have h := c4_bundle_sync envW stB2 ⟨2, 0⟩ false "" DataType.audio
    (newPort "trk/audio_in 1" DataType.audio) 0
  refine ⟨h.2.1 (by decide) (by decide), h.2.2.1 (by decide), h.2.2.2.1 (by decide), ?_⟩
  have hnm := h.2.2.2.2 (by decide) (by decide)
  simpa using hnm

/-! ### Claim C9: legacy connection-string decoding -/

/-- The input IO of the C9 scenario: two audio input ports, no
connections. -/
def st9 : IOState :=
  ⟨"trk", 1, Direction.Input, DataType.audio, false, "", [],
   ⟨[newPort "trk/audio_in 1" DataType.audio, newPort "trk/audio_in 2" DataType.audio], []⟩,
   ⟨"", []⟩⟩

/-- The legacy-format node of the C9 scenario, with
`inputs="{p1},{p2,p3}"`. -/
def node9 : XMLNode := .mk "IO" [("inputs", "\x7bp1\x7d,\x7bp2,p3\x7d")] []

/-- Claim C9: decoding a legacy (pre-3000) node with
`inputs="{p1},{p2,p3}"` on an Input IO succeeds and connects port 0 to
`p1`, and port 1 to both `p2` and `p3`: the i-th brace group maps to the
i-th port and each comma-separated name inside a group becomes one
connection of that port. -/
theorem c9_legacy_decode :
    (set_port_state_2X envW st9 node9 2000 true).1 = 0
    ∧ ((set_port_state_2X envW st9 node9 2000 true).2.1.ports.nthPort 0).map Port.connections
        = some ["p1"]
    ∧ ((set_port_state_2X envW st9 node9 2000 true).2.1.ports.nthPort 1).map Port.connections
        = some ["p2", "p3"] := by decide


/-! ### Claim C5: serialized-state round trip -/

theorem io_state_props (st : IOState) :
    (io_state st).name = "IO"
    ∧ (io_state st).property "ignore-name" = none
    ∧ (io_state st).property "name" = some st.name
    ∧ (io_state st).property "default-type" = some st.default_type.toStr
    ∧ (io_state st).property "id" = some (toString st.ident)
    ∧ (io_state st).property "direction" = some st.direction.toStr
    ∧ (io_state st).property "connection" = none
    ∧ (io_state st).property "pretty-name" =
        (if st.pretty_name = "" then none else some st.pretty_name) := by
  by_cases h : st.pretty_name = "" <;>
    simp [io_state, XMLNode.property, XMLNode.name, XMLNode.properties, h, List.find?]

theorem parseDirection_toStr (d : Direction) : parseDirection d.toStr = some d := by
  cases d <;> rfl

theorem set_name_fields (env : Env) (s : IOState) (nm : String) :
    (set_name env s nm).direction = s.direction
    ∧ (set_name env s nm).pretty_name = s.pretty_name
    ∧ (set_name env s nm).sendish = s.sendish
    ∧ (set_name env s nm).ports.count = s.ports.count := by
  unfold set_name
  by_cases h : s.name = nm
  · rw [if_pos h]
    exact ⟨rfl, rfl, rfl, rfl⟩
  · rw [if_neg h]
    refine ⟨rfl, rfl, rfl, ?_⟩
    simp [PortSet.count]

theorem ensure_ports_fields (env : Env) (s : IOState) (c : ChanCount) (b : Bool) :
    (ensure_ports env s c b).2.1.direction = s.direction
    ∧ (ensure_ports env s c b).2.1.pretty_name = s.pretty_name
    ∧ (ensure_ports env s c b).2.1.sendish = s.sendish := by
  simp only [ensure_ports, ensure_ports_locked]
  split_ifs <;> exact ⟨rfl, rfl, rfl⟩

theorem updateFirstNamed_id (nm : String) (f : Port → Port) (hf : ∀ q, f q = q) :
    ∀ l, updateFirstNamed l nm f = l := by
  intro l
  induction l with
  | nil => rfl
  | cons p rest ih =>
    unfold updateFirstNamed
    by_cases h : p.name = nm
    · rw [if_pos h, hf]
    · rw [if_neg h, ih]

theorem updateNamed_id (ps : PortSet) (nm : String) (f : Port → Port) (hf : ∀ q, f q = q) :
    ps.updateNamed nm f = ps := by
  unfold PortSet.updateNamed
  by_cases h : ps.audio.any (fun p => p.name == nm)
  · rw [if_pos h, updateFirstNamed_id nm f hf]
  · rw [if_neg h, updateFirstNamed_id nm f hf]

theorem apply_port_children_state (env : Env) (version : Nat) :
    ∀ cs (s : IOState), (apply_port_children env s version cs).1 = s := by
  intro cs
  induction cs with
  | nil => intro s; rfl
  | cons ch rest ih =>
    intro s
    unfold apply_port_children
    by_cases h1 : ch.name = "Port"
    · rw [if_pos h1]
      split
      · exact ih s
      · rename_i nm hnm
        split
        · exact ih s
        · rename_i p hp
          show (apply_port_children env
            { s with ports := s.ports.updateNamed nm fun q => portSetState q ch version }
            version rest).1 = s
          rw [updateNamed_id s.ports nm (fun q => portSetState q ch version) (fun q => rfl)]
          exact ih _
    · rw [if_neg h1]
      exact ih s

theorem gpc_step_audio (env : Env) (p : Port) (hA : p.ptype = DataType.audio)
    (cs : List XMLNode) (n : ChanCount) (na nm : Nat) (cnt : ChanCount) :
    gpc_loop env (portGetState p :: cs) n na nm cnt =
      gpc_loop env cs n (na + 1) nm (cnt.set_audio (na + 1)) := by
  have h1 : ¬((portGetState p).name = "Bundle") := by simp [portGetState, XMLNode.name]
  have h2 : (portGetState p).name = "Port" := rfl
  simp only [gpc_loop, if_neg h1, if_pos h2]
  rw [show (portGetState p).property "type" = some p.ptype.toStr from rfl]
  rw [hA]
  simp [DataType.toStr]

theorem gpc_step_midi (env : Env) (p : Port) (hM : p.ptype = DataType.midi)
    (cs : List XMLNode) (n : ChanCount) (na nm : Nat) (cnt : ChanCount) :
    gpc_loop env (portGetState p :: cs) n na nm cnt =
      gpc_loop env cs n na (nm + 1) (cnt.set_midi (nm + 1)) := by
  have h1 : ¬((portGetState p).name = "Bundle") := by simp [portGetState, XMLNode.name]
  have h2 : (portGetState p).name = "Port" := rfl
  simp only [gpc_loop, if_neg h1, if_pos h2]
  rw [show (portGetState p).property "type" = some p.ptype.toStr from rfl]
  rw [hM]
  simp [DataType.toStr]

theorem gpc_loop_ports (env : Env) :
    ∀ (l : List Port) (n cnt : ChanCount),
      (∀ p ∈ l, p.ptype = DataType.audio ∨ p.ptype = DataType.midi) →
      gpc_loop env (l.map portGetState) n cnt.n_audio cnt.n_midi cnt =
        (0, ChanCount.mx n
          ⟨cnt.n_audio + l.countP (fun p => p.ptype == DataType.audio),
           cnt.n_midi + l.countP (fun p => p.ptype == DataType.midi)⟩, none) := by
  intro l
  induction l with
  | nil =>
    intro n cnt _
    cases cnt
    simp [gpc_loop]
  | cons p rest ih =>
    intro n cnt hl
    rcases hl p (by simp) with hA | hM
    · rw [List.map_cons, gpc_step_audio env p hA]
      have := ih n (cnt.set_audio (cnt.n_audio + 1)) (fun q hq => hl q (by simp [hq]))
      rw [show (cnt.set_audio (cnt.n_audio + 1)).n_audio = cnt.n_audio + 1 from rfl] at this
      rw [show (cnt.set_audio (cnt.n_audio + 1)).n_midi = cnt.n_midi from rfl] at this
      rw [this]
      simp [List.countP_cons, hA, ChanCount.set_audio]
      congr 1
      congr 1
      omega
    · rw [List.map_cons, gpc_step_midi env p hM]
      have := ih n (cnt.set_midi (cnt.n_midi + 1)) (fun q hq => hl q (by simp [hq]))
      rw [show (cnt.set_midi (cnt.n_midi + 1)).n_audio = cnt.n_audio from rfl] at this
      rw [show (cnt.set_midi (cnt.n_midi + 1)).n_midi = cnt.n_midi + 1 from rfl] at this
      rw [this]
      simp [List.countP_cons, hM, ChanCount.set_midi]
      congr 1
      congr 1
      omega

theorem countP_types (ps : PortSet) (hwf : ps.wf) :
    ps.list.countP (fun p => p.ptype == DataType.audio) = ps.audio.length
    ∧ ps.list.countP (fun p => p.ptype == DataType.midi) = ps.midi.length := by
  obtain ⟨ha, hm⟩ := hwf
  constructor
  · rw [PortSet.list, List.countP_append]
    have h1 : ps.audio.countP (fun p => p.ptype == DataType.audio) = ps.audio.length :=
      List.countP_eq_length.mpr (fun p hp => by simp [ha p hp])
    have h2 : ps.midi.countP (fun p => p.ptype == DataType.audio) = 0 :=
      List.countP_eq_zero.mpr (fun p hp => by simp [hm p hp])
    omega
  · rw [PortSet.list, List.countP_append]
    have h1 : ps.audio.countP (fun p => p.ptype == DataType.midi) = 0 :=
      List.countP_eq_zero.mpr (fun p hp => by simp [ha p hp])
    have h2 : ps.midi.countP (fun p => p.ptype == DataType.midi) = ps.midi.length :=
      List.countP_eq_length.mpr (fun p hp => by simp [hm p hp])
    omega

theorem get_port_counts_roundtrip (env : Env) (s : IOState) (st : IOState) (version : Nat)
    (hv : 3000 ≤ version) (hwf : st.ports.wf) (hcnt : s.ports.count = ChanCount.zero) :
    get_port_counts env s (io_state st) version ChanCount.zero =
      (0, st.ports.count, none) := by
  obtain ⟨hname, hignore, hnm, hdt, hid, hdir, hconn, hpretty⟩ := io_state_props st
  unfold get_port_counts
  rw [if_neg (by omega)]
  rw [hconn]
  show gpc_loop env (io_state st).children s.ports.count 0 0 ChanCount.zero =
    (0, st.ports.count, none)
  rw [hcnt]
  rw [show (io_state st).children = st.ports.list.map portGetState from rfl]
  have hl : ∀ p ∈ st.ports.list, p.ptype = DataType.audio ∨ p.ptype = DataType.midi := by
    intro p hp
    rw [PortSet.list] at hp
    rcases List.mem_append.mp hp with h | h
    · exact Or.inl (hwf.1 p h)
    · exact Or.inr (hwf.2 p h)
  have := gpc_loop_ports env st.ports.list ChanCount.zero ChanCount.zero hl
  rw [show ChanCount.zero.n_audio = 0 from rfl, show ChanCount.zero.n_midi = 0 from rfl] at this
  rw [this]
  obtain ⟨hc1, hc2⟩ := countP_types st.ports hwf
  rw [hc1, hc2]
  simp [ChanCount.mx, ChanCount.zero, PortSet.count]

theorem set_pretty_name_pretty (s : IOState) (v : String) :
    (set_pretty_name s v).pretty_name = v := by
  unfold set_pretty_name
  by_cases h : s.pretty_name = v
  · rw [if_pos h]
    exact h
  · rw [if_neg h]

theorem set_pretty_name_other (s : IOState) (v : String) :
    (set_pretty_name s v).ports = s.ports ∧ (set_pretty_name s v).direction = s.direction := by
  unfold set_pretty_name
  by_cases h : s.pretty_name = v
  · rw [if_pos h]
    exact ⟨rfl, rfl⟩
  · rw [if_neg h]
    exact ⟨rfl, rfl⟩

theorem node2_property (node : XMLNode) (cs : List XMLNode) (k : String) :
    (XMLNode.mk node.name node.properties cs).property k = node.property k := rfl

theorem set_state_ports_phase_spec (env : Env) (st4 : IOState) (st : IOState) (version : Nat)
    (hreg : ∀ t s, env.regOk t s = true) (hwf : st.ports.wf) (hv : 3000 ≤ version)
    (hc : st4.ports.count = ChanCount.zero) :
    (set_state_ports_phase env st4 (io_state st) version).1 = 0
    ∧ (set_state_ports_phase env st4 (io_state st) version).2.1.ports.count = st.ports.count
    ∧ (set_state_ports_phase env st4 (io_state st) version).2.1.direction = st4.direction
    ∧ (set_state_ports_phase env st4 (io_state st) version).2.1.pretty_name =
        (if st.pretty_name = "" then st4.pretty_name else st.pretty_name) := by
  obtain ⟨hname, hignore, hnm, hdt, hid, hdir, hconn, hpretty⟩ := io_state_props st
  have hE := ensure_ports_count env st4 st.ports.count
    (!env.initial_connect_or_deletion_in_progress) hreg
  have hEf := ensure_ports_fields env st4 st.ports.count
    (!env.initial_connect_or_deletion_in_progress)
  have hcp : create_ports env st4 (io_state st) version =
      (0, (ensure_ports env st4 st.ports.count (!env.initial_connect_or_deletion_in_progress)).2.1,
       (ensure_ports env st4 st.ports.count (!env.initial_connect_or_deletion_in_progress)).2.2) := by
    simp only [create_ports]
    rw [get_port_counts_roundtrip env st4 st version hv hwf hc]
    rw [if_neg (fun hcon => hcon hE.1)]
  simp only [set_state_ports_phase]
  rw [hcp]
  rw [if_neg (by simp)]
  simp only
  generalize hst5 : (ensure_ports env st4 st.ports.count
    (!env.initial_connect_or_deletion_in_progress)).2.1 = st5 at hE hEf
  have hap := apply_port_children_state env version
  by_cases hsend : st5.sendish ∧ st5.direction = Direction.Output
  · rw [if_pos hsend]
    rw [node2_property]
    by_cases hpe : st.pretty_name = ""
    · rw [if_pos hpe] at hpretty
      rw [hpretty]
      simp only [hap]
      refine ⟨trivial, ?_, ?_, ?_⟩
      · rw [hE.2]
      · rw [hEf.1]
      · rw [hEf.2.1]
        simp [hpe]
    · rw [if_neg hpe] at hpretty
      rw [hpretty]
      simp only [hap]
      have hspo := set_pretty_name_other st5 st.pretty_name
      refine ⟨trivial, ?_, ?_, ?_⟩
      · rw [hspo.1, hE.2]
      · rw [hspo.2, hEf.1]
      · rw [set_pretty_name_pretty]
        simp [hpe]
  · rw [if_neg hsend]
    by_cases hpe : st.pretty_name = ""
    · rw [if_pos hpe] at hpretty
      rw [hpretty]
      simp only [hap]
      refine ⟨trivial, ?_, ?_, ?_⟩
      · rw [hE.2]
      · rw [hEf.1]
      · rw [hEf.2.1]
        simp [hpe]
    · rw [if_neg hpe] at hpretty
      rw [hpretty]
      simp only [hap]
      have hspo := set_pretty_name_other st5 st.pretty_name
      refine ⟨trivial, ?_, ?_, ?_⟩
      · rw [hspo.1, hE.2]
      · rw [hspo.2, hEf.1]
      · rw [set_pretty_name_pretty]
        simp [hpe]

theorem c5_final_step (env : Env) (st4 st : IOState) (version : Nat)
    (hreg : ∀ t s, env.regOk t s = true) (hwf : st.ports.wf) (hv : 3000 ≤ version)
    (hc : st4.ports.count = ChanCount.zero)
    (hdir4 : st4.direction = st.direction) (hpretty4 : st4.pretty_name = "") :
    (set_state_ports_phase env st4 (io_state st) version).2.1.ports.count = st.ports.count
    ∧ (set_state_ports_phase env st4 (io_state st) version).2.1.direction = st.direction
    ∧ (set_state_ports_phase env st4 (io_state st) version).2.1.pretty_name = st.pretty_name := by
  have hp := set_state_ports_phase_spec env st4 st version hreg hwf hv hc
  refine ⟨hp.2.1, ?_, ?_⟩
  · rw [hp.2.2.1, hdir4]
  · rw [hp.2.2.2]
    by_cases hpe : st.pretty_name = ""
    · rw [if_pos hpe, hpretty4, hpe]
    · rw [if_neg hpe]

/-- Claim C5: serializing an IO's state and constructing a fresh IO from the
serialized node (at any current-format version) yields an IO whose per-type
port count, direction, and pretty-name equal the original's, provided the
backend accepts every port registration. -/
theorem c5_roundtrip (env : Env) (st : IOState) (dt : DataType) (sendish : Bool) (version : Nat)
    (hreg : ∀ t s, env.regOk t s = true) (hwf : st.ports.wf) (hv : 3000 ≤ version) :
    (io_from_xml env (io_state st) dt sendish version).2.1.ports.count = st.ports.count
    ∧ (io_from_xml env (io_state st) dt sendish version).2.1.direction = st.direction
    ∧ (io_from_xml env (io_state st) dt sendish version).2.1.pretty_name = st.pretty_name := by
  obtain ⟨hname, hignore, hnm, hdt, hid, hdir, hconn, hpretty⟩ := io_state_props st
  simp only [io_from_xml, set_state]
  rw [if_neg (by omega : ¬ version < 3000)]
  rw [if_neg (by rw [hname]; simp)]
  rw [hignore, hnm, hdt, hid, hdir]
  simp only [Option.isSome_none, Bool.not_false, if_true, Option.some_bind, parseDirection_toStr]
  split
  all_goals split
  all_goals
    (refine c5_final_step env _ st version hreg hwf hv ?_ rfl ?_
     · show (set_name env (fresh_io dt sendish) st.name).ports.count = ChanCount.zero
       rw [(set_name_fields env (fresh_io dt sendish) st.name).2.2.2]
       rfl
     · show (set_name env (fresh_io dt sendish) st.name).pretty_name = ""
       rw [(set_name_fields env (fresh_io dt sendish) st.name).2.1]
       rfl)

/-- The original IO of the C5 witness: two audio ports, one MIDI port, a
pretty name. -/
def stW5 : IOState :=
  ⟨"trk", 7, Direction.Output, DataType.audio, false, "nice", [],
   ⟨[newPort "trk/audio_out 1" DataType.audio, newPort "trk/audio_out 2" DataType.audio],
    [newPort "trk/midi_out 1" DataType.midi]⟩, ⟨"", []⟩⟩

/-- Claim C5 witness: the round trip at a concrete 2-audio/1-MIDI output IO
with a pretty name, at version 3000. -/
theorem c5_witness :
    (io_from_xml envW (io_state stW5) DataType.audio false 3000).2.1.ports.count =
        stW5.ports.count
    ∧ (io_from_xml envW (io_state stW5) DataType.audio false 3000).2.1.direction =
        stW5.direction
    ∧ (io_from_xml envW (io_state stW5) DataType.audio false 3000).2.1.pretty_name =
        stW5.pretty_name :=
  c5_roundtrip envW stW5 DataType.audio false 3000 (fun _ _ => rfl) (by decide) (by decide)

end ARDOUR
